import Mathlib

/-!
Verification of the txref bit-field codec and classification logic
(danpape/libtxref, src/libtxref/txref.cpp).

The development shallowly embeds the C++ source: machine integers become
Int (signed parameters) and Nat (unsigned payload symbols), C++ strings
become List Char, throwing functions return Except Err. The external
bech32 checksum codec (libbech32) and the constants declared in
libtxref.h are not part of src/libtxref/txref.cpp; they are modelled from
the specification where noted.
-/

/-- Error kinds, following the error taxonomy of the specification: each
constructor corresponds to one family of throw sites in txref.cpp.
The insertOutOfRange kind models the out-of-range string insertion in
prettyPrint, which is undefined behavior in the C++ source. -/
inductive Err
  | rangeError
  | unsupportedVariant
  | unsupportedVersion
  | invalidPayloadSize
  | checksumError
  | formatError
  | separatorOffsetError
  | insertOutOfRange
deriving DecidableEq

/-! ## Constants from txref.cpp (anonymous namespace, lines 15-25) -/

def MAX_BLOCK_HEIGHT : Int := 0xFFFFFF

def MAX_TRANSACTION_POSITION : Int := 0x7FFF

def MAX_TXO_INDEX : Int := 0x7FFF

def MAX_MAGIC_CODE : Int := 0x1F

def DATA_SIZE : Nat := 9

def DATA_EXTENDED_SIZE : Nat := 12

/-! ## Constants modelled from the spec

The header libtxref.h is not under src/; its declarations are modelled
from the specification (magic codes identify network and variant, the
two extended codes are reserved values; canonical HRPs are tx and
txtest; minimum string lengths are HRP length + 1 separator + payload
symbols + 6 checksum symbols). -/

/-- Modelled from the spec: standard mainnet magic code (libtxref.h). -/
def MAGIC_BTC_MAIN : Nat := 0x3

/-- Modelled from the spec: extended mainnet magic code (libtxref.h). -/
def MAGIC_BTC_MAIN_EXTENDED : Nat := 0x4

/-- Modelled from the spec: standard testnet magic code (libtxref.h). -/
def MAGIC_BTC_TEST : Nat := 0x6

/-- Modelled from the spec: extended testnet magic code (libtxref.h). -/
def MAGIC_BTC_TEST_EXTENDED : Nat := 0x7

/-- Modelled from the spec: canonical mainnet HRP (libtxref.h). -/
def BECH32_HRP_MAIN : List Char := ['t', 'x']

/-- Modelled from the spec: canonical testnet HRP (libtxref.h). -/
def BECH32_HRP_TEST : List Char := ['t', 'x', 't', 'e', 's', 't']

/-- Modelled from the spec: the colon inserted after the HRP (libtxref.h). -/
def txrefColon : Char := ':'

/-- Modelled from the spec: the hyphen group separator (libtxref.h). -/
def txrefHyphen : Char := '-'

/-- Modelled from the spec: minimum mainnet standard txref length,
2 (HRP) + 1 (separator) + 9 (payload) + 6 (checksum) (libtxref.h). -/
def TXREF_STRING_MIN_LENGTH : Nat := 18

/-- Modelled from the spec: minimum testnet standard txref length (libtxref.h). -/
def TXREF_STRING_MIN_LENGTH_TESTNET : Nat := 22

/-- Modelled from the spec: minimum mainnet extended txref length (libtxref.h). -/
def TXREF_EXT_STRING_MIN_LENGTH : Nat := 21

/-- Modelled from the spec: minimum testnet extended txref length (libtxref.h). -/
def TXREF_EXT_STRING_MIN_LENGTH_TESTNET : Nat := 25

/-- Modelled from the spec: minimum standard txref length without HRP (libtxref.h). -/
def TXREF_STRING_NO_HRP_MIN_LENGTH : Nat := 15

/-- Modelled from the spec: minimum extended txref length without HRP (libtxref.h). -/
def TXREF_EXT_STRING_NO_HRP_MIN_LENGTH : Nat := 18

/-! ## External bech32 checksum codec, modelled from the spec

The spec treats the checksum codec as a black box with interface
encode(hrp, payload) -> string, decode(string) -> (hrp, payload,
checksum variant), stripUnknownChars(string) -> string, where decode
signals checksum failure by returning an empty hrp and empty payload.
The model uses the standard 32-character bech32 alphabet and the bech32
polynomial; decode validates the 6-symbol checksum by recomputation,
which is extensionally the same acceptance condition. -/

/-- Modelled from the spec: maximum HRP length of the checksum codec
(bech32, limit 83). -/
def MAX_HRP_LENGTH : Nat := 83

/-- Modelled from the spec: the separator character of the checksum codec. -/
def bech32Separator : Char := '1'

/-- Modelled from the spec: the 5-bit symbol alphabet of the checksum codec. -/
def CHARSET : List Char :=
  ['q', 'p', 'z', 'r', 'y', '9', 'x', '8',
   'g', 'f', '2', 't', 'v', 'd', 'w', '0',
   's', '3', 'j', 'n', '5', '4', 'k', 'h',
   'c', 'e', '6', 'm', 'u', 'a', '7', 'l']

/-- Modelled from the spec: character for a 5-bit symbol value. -/
def bech32CharFromValue (v : Nat) : Char := CHARSET.getD v 'q'

/-- Modelled from the spec: 5-bit symbol value of an alphabet character. -/
def charsetIndex (c : Char) : Option Nat := CHARSET.findIdx? (fun x => x = c)

/-- Modelled from the spec: a character survives stripUnknownChars when it
belongs to the symbol alphabet or is the codec separator. -/
def bech32KeepChar (c : Char) : Bool := (charsetIndex c).isSome || c = bech32Separator

/-- Modelled from the spec: stripUnknownChars of the checksum codec. -/
def stripUnknownChars (s : List Char) : List Char := s.filter bech32KeepChar

/-- Modelled from the spec: bech32m checksum constant. -/
def BECH32M_CONST : Nat := 0x2bc830a3

/-- Modelled from the spec: legacy bech32 checksum constant. -/
def BECH32_CONST : Nat := 1

/-- Modelled from the spec: bech32 checksum generator coefficients. -/
def bech32GEN : List Nat := [0x3b6a57b2, 0x26508e6d, 0x1ea119fa, 0x3d4233dd, 0x2a1462b3]

/-- Modelled from the spec: one step of the bech32 checksum polynomial. -/
def bech32PolymodStep (chk v : Nat) : Nat :=
  let b := chk >>> 25
  (List.range 5).foldl
    (fun acc i => if (b >>> i) &&& 1 = 1 then acc ^^^ bech32GEN.getD i 0 else acc)
    (((chk &&& 0x1FFFFFF) <<< 5) ^^^ v)

/-- Modelled from the spec: the bech32 checksum polynomial. -/
def bech32Polymod (values : List Nat) : Nat := values.foldl bech32PolymodStep 1

/-- Modelled from the spec: HRP expansion feeding the checksum polynomial. -/
def bech32ExpandHrp (hrp : List Char) : List Nat :=
  hrp.map (fun c => c.toNat >>> 5) ++ 0 :: hrp.map (fun c => c.toNat &&& 31)

/-- Modelled from the spec: the 6 checksum symbols for a variant constant. -/
def bech32Checksum (cnst : Nat) (hrp : List Char) (dp : List Nat) : List Nat :=
  let pm := bech32Polymod (bech32ExpandHrp hrp ++ dp ++ [0, 0, 0, 0, 0, 0]) ^^^ cnst
  [pm >>> 25 &&& 31, pm >>> 20 &&& 31, pm >>> 15 &&& 31,
   pm >>> 10 &&& 31, pm >>> 5 &&& 31, pm &&& 31]

/-- Modelled from the spec: checksum codec encode, always the modern
(bech32m) variant. -/
def bech32Encode (hrp : List Char) (dp : List Nat) : List Char :=
  hrp ++ bech32Separator :: (dp ++ bech32Checksum BECH32M_CONST hrp dp).map bech32CharFromValue

/-- Checksum variant reported by the external decoder. -/
inductive Bech32Encoding
  | invalid
  | bech32
  | bech32m
deriving DecidableEq

/-- Result of the external checksum decoder: empty hrp and empty payload
signal checksum failure. -/
structure Bech32DecodedResult where
  hrp : List Char
  dp : List Nat
  encoding : Bech32Encoding
deriving DecidableEq

/-- The failure result of the external checksum decoder. -/
def bech32Fail : Bech32DecodedResult := ⟨[], [], Bech32Encoding.invalid⟩

/-- Split a string at its last codec separator. -/
def lastSepSplit : List Char → Option (List Char × List Char)
  | [] => none
  | c :: rest =>
    match lastSepSplit rest with
    | some (h, t) => some (c :: h, t)
    | none => if c = bech32Separator then some ([], rest) else none

/-- Map data characters back to 5-bit symbol values, failing on any
character outside the alphabet. -/
def valuesOfChars : List Char → Option (List Nat)
  | [] => some []
  | c :: cs =>
    match charsetIndex c, valuesOfChars cs with
    | some v, some vs => some (v :: vs)
    | _, _ => none

/-- Modelled from the spec: checksum codec decode. Splits at the last
separator, maps characters to symbol values, and accepts when the last
6 symbols equal the recomputed checksum of either variant; any failure
yields the empty result. -/
def bech32Decode (s : List Char) : Bech32DecodedResult :=
  match lastSepSplit s with
  | none => bech32Fail
  | some (hrp, body) =>
    if hrp.length = 0 then bech32Fail
    else if MAX_HRP_LENGTH < hrp.length then bech32Fail
    else
      match valuesOfChars body with
      | none => bech32Fail
      | some vals =>
        if vals.length < 6 then bech32Fail
        else
          let data := vals.take (vals.length - 6)
          let chk := vals.drop (vals.length - 6)
          if chk = bech32Checksum BECH32M_CONST hrp data then ⟨hrp, data, Bech32Encoding.bech32m⟩
          else if chk = bech32Checksum BECH32_CONST hrp data then ⟨hrp, data, Bech32Encoding.bech32⟩
          else bech32Fail

/-! ## Types of the public interface (libtxref.h, modelled from the spec) -/

namespace txref

/-- Modelled from the spec: checksum variant of a decoded txref (libtxref.h). -/
inductive Encoding
  | invalid
  | bech32
  | bech32m
deriving DecidableEq

/-- Modelled from the spec: classification of an arbitrary input string
(libtxref.h). -/
inductive InputParam
  | unknown
  | address
  | txid
  | txref
  | txrefext
deriving DecidableEq

/-- Modelled from the spec: the decoded reference returned by decode
(libtxref.h). -/
structure DecodedResult where
  txref : List Char
  hrp : List Char
  magicCode : Nat
  blockHeight : Nat
  transactionPosition : Nat
  txoIndex : Nat
  encoding : Encoding
  commentary : List Char
deriving DecidableEq

end txref

/-! ## File-local helpers of txref.cpp (anonymous namespace) -/

/-- isStandardSize (txref.cpp line 28). -/
def isStandardSize (dataSize : Nat) : Bool := dataSize = DATA_SIZE

/-- isExtendedSize (txref.cpp line 32). -/
def isExtendedSize (dataSize : Nat) : Bool := dataSize = DATA_EXTENDED_SIZE

/-- isDataSizeValid (txref.cpp line 36). -/
def isDataSizeValid (dataSize : Nat) : Bool := isStandardSize dataSize || isExtendedSize dataSize

/-- isLengthValid (txref.cpp line 41). -/
def isLengthValid (length : Nat) : Bool :=
  length = TXREF_STRING_NO_HRP_MIN_LENGTH || length = TXREF_EXT_STRING_NO_HRP_MIN_LENGTH

/-- checkBlockHeightRange (txref.cpp line 47). -/
def checkBlockHeightRange (blockHeight : Int) : Except Err Unit :=
  if blockHeight < 0 ∨ MAX_BLOCK_HEIGHT < blockHeight then .error .rangeError else .ok ()

/-- checkTransactionPositionRange (txref.cpp line 53). -/
def checkTransactionPositionRange (transactionPosition : Int) : Except Err Unit :=
  if transactionPosition < 0 ∨ MAX_TRANSACTION_POSITION < transactionPosition then
    .error .rangeError
  else .ok ()

/-- checkTxoIndexRange (txref.cpp line 59). -/
def checkTxoIndexRange (txoIndex : Int) : Except Err Unit :=
  if txoIndex < 0 ∨ MAX_TXO_INDEX < txoIndex then .error .rangeError else .ok ()

/-- checkMagicCodeRange (txref.cpp line 65). -/
def checkMagicCodeRange (magicCode : Int) : Except Err Unit :=
  if magicCode < 0 ∨ MAX_MAGIC_CODE < magicCode then .error .rangeError else .ok ()

/-- checkExtendedMagicCode (txref.cpp line 71). -/
def checkExtendedMagicCode (magicCode : Int) : Except Err Unit :=
  if magicCode ≠ (MAGIC_BTC_MAIN_EXTENDED : Int) ∧ magicCode ≠ (MAGIC_BTC_TEST_EXTENDED : Int) then
    .error .unsupportedVariant
  else .ok ()

/-- Functional rendering of the copy loop of addGroupSeparators
(txref.cpp lines 110-119): after emitting the character at one-based
position rawPos, a hyphen is emitted when the position is past the HRP,
lands on a group boundary, and a later character exists (the imperative
version pre-fills exactly that many in-bounds hyphen slots, since
numSeparators counts the boundaries strictly before the end). -/
def addSepLoop (hrplen offset : Nat) : List Char → Nat → List Char
  | [], _ => []
  | c :: rest, rawPos =>
    if hrplen < rawPos + 1 ∧ (rawPos + 1 - hrplen) % offset = 0 ∧ rest ≠ [] then
      c :: txrefHyphen :: addSepLoop hrplen offset rest (rawPos + 1)
    else
      c :: addSepLoop hrplen offset rest (rawPos + 1)

/-- addGroupSeparators (txref.cpp line 77). -/
def addGroupSeparators (raw : List Char) (hrplen : Nat) (separatorOffset : Int) :
    Except Err (List Char) :=
  if MAX_HRP_LENGTH < hrplen then .error .formatError
  else if separatorOffset < 1 then .error .separatorOffsetError
  else if raw.length < 2 then .error .formatError
  else if raw.length = hrplen then .ok raw
  else if raw.length < hrplen then .error .formatError
  else .ok (addSepLoop hrplen separatorOffset.toNat raw 0)

/-- Insertion of a character at a position of a string; an
out-of-range position is undefined behavior in the C++ source and is
reported as a failure here. -/
def strInsert (s : List Char) (pos : Nat) (c : Char) : Option (List Char) :=
  if pos ≤ s.length then some (s.take pos ++ c :: s.drop pos) else none

/-- prettyPrint (txref.cpp line 125): insert a colon after the HRP and
the codec separator, then hyphens every 4th character after that. -/
def prettyPrint (plain : List Char) (hrplen : Nat) : Except Err (List Char) :=
  match strInsert plain (hrplen + 1) txrefColon with
  | none => .error .insertOutOfRange
  | some withColon => addGroupSeparators withColon (hrplen + 2) 4

/-- extractMagicCode (txref.cpp line 144). -/
def extractMagicCode (dp : List Nat) : Nat := dp.getD 0 0

/-- extractVersion (txref.cpp line 150). -/
def extractVersion (dp : List Nat) : Nat := dp.getD 1 0 &&& 0x1

/-- extractBlockHeight (txref.cpp line 156). -/
def extractBlockHeight (dp : List Nat) : Except Err Nat :=
  if extractVersion dp = 0 then
    .ok ((((dp.getD 1 0 >>> 1 ||| dp.getD 2 0 <<< 4) ||| dp.getD 3 0 <<< 9) |||
         dp.getD 4 0 <<< 14) ||| dp.getD 5 0 <<< 19)
  else .error .unsupportedVersion

/-- extractTransactionPosition (txref.cpp line 175). -/
def extractTransactionPosition (dp : List Nat) : Except Err Nat :=
  if extractVersion dp = 0 then
    .ok ((dp.getD 6 0 ||| dp.getD 7 0 <<< 5) ||| dp.getD 8 0 <<< 10)
  else .error .unsupportedVersion

/-- extractTxoIndex (txref.cpp line 192): standard payloads store no txo
index, so it decodes as 0 without a version check. -/
def extractTxoIndex (dp : List Nat) : Except Err Nat :=
  if dp.length < 12 then .ok 0
  else if extractVersion dp = 0 then
    .ok ((dp.getD 9 0 ||| dp.getD 10 0 <<< 5) ||| dp.getD 11 0 <<< 10)
  else .error .unsupportedVersion

/-- addHrpIfNeeded (txref.cpp line 216). -/
def addHrpIfNeeded (s : List Char) : List Char :=
  if isLengthValid s.length ∧ (s.getD 0 ' ' = 'r' ∨ s.getD 0 ' ' = 'y') then
    BECH32_HRP_MAIN ++ bech32Separator :: s
  else if isLengthValid s.length ∧ (s.getD 0 ' ' = 'x' ∨ s.getD 0 ' ' = '8') then
    BECH32_HRP_TEST ++ bech32Separator :: s
  else s

/-- The 9 payload symbols assembled by txrefEncode (txref.cpp lines
241-259): magic code, version bit 0 with the low 4 height bits, the
remaining height bits in 5-bit symbols, then the position in 5-bit
symbols. -/
def buildStandardDp (magicCode bh tp : Nat) : List Nat :=
  [magicCode,
   (bh &&& 0xF) <<< 1,
   (bh &&& 0x1F0) >>> 4,
   (bh &&& 0x3E00) >>> 9,
   (bh &&& 0x7C000) >>> 14,
   (bh &&& 0xF80000) >>> 19,
   tp &&& 0x1F,
   (tp &&& 0x3E0) >>> 5,
   (tp &&& 0x7C00) >>> 10]

/-- The 12 payload symbols assembled by txrefExtEncode (txref.cpp lines
288-311). -/
def buildExtendedDp (magicCode bh tp ti : Nat) : List Nat :=
  [magicCode,
   (bh &&& 0xF) <<< 1,
   (bh &&& 0x1F0) >>> 4,
   (bh &&& 0x3E00) >>> 9,
   (bh &&& 0x7C000) >>> 14,
   (bh &&& 0xF80000) >>> 19,
   tp &&& 0x1F,
   (tp &&& 0x3E0) >>> 5,
   (tp &&& 0x7C00) >>> 10,
   ti &&& 0x1F,
   (ti &&& 0x3E0) >>> 5,
   (ti &&& 0x7C00) >>> 10]

/-- txrefEncode (txref.cpp line 227). -/
def txrefEncode (hrp : List Char) (magicCode blockHeight transactionPosition : Int) :
    Except Err (List Char) :=
  match checkBlockHeightRange blockHeight with
  | .error e => .error e
  | .ok _ =>
    match checkTransactionPositionRange transactionPosition with
    | .error e => .error e
    | .ok _ =>
      match checkMagicCodeRange magicCode with
      | .error e => .error e
      | .ok _ =>
        let dp := buildStandardDp magicCode.toNat blockHeight.toNat transactionPosition.toNat
        prettyPrint (bech32Encode hrp dp) hrp.length

/-- txrefExtEncode (txref.cpp line 270). -/
def txrefExtEncode (hrp : List Char)
    (magicCode blockHeight transactionPosition txoIndex : Int) :
    Except Err (List Char) :=
  match checkBlockHeightRange blockHeight with
  | .error e => .error e
  | .ok _ =>
    match checkTransactionPositionRange transactionPosition with
    | .error e => .error e
    | .ok _ =>
      match checkTxoIndexRange txoIndex with
      | .error e => .error e
      | .ok _ =>
        match checkMagicCodeRange magicCode with
        | .error e => .error e
        | .ok _ =>
          match checkExtendedMagicCode magicCode with
          | .error e => .error e
          | .ok _ =>
            let dp := buildExtendedDp magicCode.toNat blockHeight.toNat
              transactionPosition.toNat txoIndex.toNat
            prettyPrint (bech32Encode hrp dp) hrp.length

/-- classifyInputStringBase (txref.cpp line 322). -/
def classifyInputStringBase (str : List Char) : txref.InputParam :=
  let s := stripUnknownChars str
  if s.length = TXREF_STRING_MIN_LENGTH ∨ s.length = TXREF_STRING_MIN_LENGTH_TESTNET then
    txref.InputParam.txref
  else if s.length = TXREF_EXT_STRING_MIN_LENGTH ∨
      s.length = TXREF_EXT_STRING_MIN_LENGTH_TESTNET then
    txref.InputParam.txrefext
  else txref.InputParam.unknown

/-- classifyInputStringMissingHRP (txref.cpp line 337). -/
def classifyInputStringMissingHRP (str : List Char) : txref.InputParam :=
  let s := stripUnknownChars str
  if s.length = TXREF_STRING_NO_HRP_MIN_LENGTH then txref.InputParam.txref
  else if s.length = TXREF_EXT_STRING_NO_HRP_MIN_LENGTH then txref.InputParam.txrefext
  else txref.InputParam.unknown

/-- Pieces of the migration commentary attached to legacy decodes
(txref.cpp lines 423-425). -/
def commentaryPart1 : List Char := "The txref ".toList

def commentaryPart2 : List Char :=
  " uses an old encoding scheme and should be updated to ".toList

def commentaryPart3 : List Char :=
  " See https://github.com/dcdpr/libtxref#regarding-bech32-checksums for more information.".toList

def commentaryText (oldTxref newTxref : List Char) : List Char :=
  commentaryPart1 ++ oldTxref ++ commentaryPart2 ++ newTxref ++ commentaryPart3

/-! ## Public interface (namespace txref, txref.cpp lines 354-473) -/

namespace txref

/-- txref::encode (txref.cpp line 356). -/
def encode (blockHeight transactionPosition txoIndex : Int) (forceExtended : Bool)
    (hrp : List Char) : Except Err (List Char) :=
  if txoIndex = 0 ∧ forceExtended = false then
    txrefEncode hrp (MAGIC_BTC_MAIN : Int) blockHeight transactionPosition
  else
    txrefExtEncode hrp (MAGIC_BTC_MAIN_EXTENDED : Int) blockHeight transactionPosition txoIndex

/-- txref::encodeTestnet (txref.cpp line 370). -/
def encodeTestnet (blockHeight transactionPosition txoIndex : Int) (forceExtended : Bool)
    (hrp : List Char) : Except Err (List Char) :=
  if txoIndex = 0 ∧ forceExtended = false then
    txrefEncode hrp (MAGIC_BTC_TEST : Int) blockHeight transactionPosition
  else
    txrefExtEncode hrp (MAGIC_BTC_TEST_EXTENDED : Int) blockHeight transactionPosition txoIndex

/-- txref::decode (txref.cpp line 384). -/
def decode (txrefStr : List Char) : Except Err DecodedResult :=
  let txrefClean := addHrpIfNeeded (stripUnknownChars txrefStr)
  let b := bech32Decode txrefClean
  if b.hrp.length = 0 ∧ b.dp.length = 0 then .error .checksumError
  else if !isDataSizeValid b.dp.length then .error .invalidPayloadSize
  else
    let magicCode := extractMagicCode b.dp
    match prettyPrint txrefClean b.hrp.length with
    | .error e => .error e
    | .ok prettyTxref =>
      match extractBlockHeight b.dp with
      | .error e => .error e
      | .ok blockHeight =>
        match extractTransactionPosition b.dp with
        | .error e => .error e
        | .ok transactionPosition =>
          match extractTxoIndex b.dp with
          | .error e => .error e
          | .ok txoIndex =>
            if b.encoding = Bech32Encoding.bech32m then
              .ok ⟨prettyTxref, b.hrp, magicCode, blockHeight, transactionPosition, txoIndex,
                   Encoding.bech32m, []⟩
            else if b.encoding = Bech32Encoding.bech32 then
              match (if magicCode = MAGIC_BTC_MAIN_EXTENDED ∨ magicCode = MAGIC_BTC_TEST_EXTENDED
                     then txrefExtEncode b.hrp (magicCode : Int) (blockHeight : Int)
                       (transactionPosition : Int) (txoIndex : Int)
                     else txrefEncode b.hrp (magicCode : Int) (blockHeight : Int)
                       (transactionPosition : Int)) with
              | .error e => .error e
              | .ok updatedTxref =>
                .ok ⟨prettyTxref, b.hrp, magicCode, blockHeight, transactionPosition, txoIndex,
                     Encoding.bech32, commentaryText prettyTxref updatedTxref⟩
            else
              .ok ⟨prettyTxref, b.hrp, magicCode, blockHeight, transactionPosition, txoIndex,
                   Encoding.invalid, []⟩

/-- txref::classifyInputString (txref.cpp line 431). -/
def classifyInputString (str : List Char) : InputParam :=
  if str = [] then InputParam.unknown
  else if str.length = 64 then InputParam.txid
  else if (str.getD 0 ' ' = '1' ∨ str.getD 0 ' ' = '3' ∨ str.getD 0 ' ' = 'm' ∨
      str.getD 0 ' ' = 'n' ∨ str.getD 0 ' ' = '2') ∧ 26 ≤ str.length ∧ str.length < 36 then
    InputParam.address
  else
    let baseResult := classifyInputStringBase str
    let missingResult := classifyInputStringMissingHRP str
    if baseResult ≠ InputParam.unknown ∧ missingResult = InputParam.unknown then baseResult
    else if baseResult = InputParam.unknown ∧ missingResult ≠ InputParam.unknown then
      missingResult
    else if baseResult = InputParam.txref ∧ missingResult = InputParam.txrefext then
      if str.getD 0 ' ' = BECH32_HRP_MAIN.getD 0 ' ' ∧
          str.getD 1 ' ' = BECH32_HRP_MAIN.getD 1 ' ' ∧ str.getD 2 ' ' = bech32Separator then
        InputParam.txref
      else InputParam.txrefext
    else baseResult

end txref

/-! ## Arithmetic bridges for the 5-bit packing -/

lemma and_mask_shift (x a b : Nat) : (x &&& ((2 ^ b - 1) <<< a)) >>> a = x >>> a % 2 ^ b := by
  apply Nat.eq_of_testBit_eq
  intro j
  have h2 : a + j - a = j := by omega
  simp [Nat.testBit_shiftRight, Nat.testBit_and, Nat.testBit_shiftLeft, Nat.testBit_mod_two_pow,
        Nat.testBit_two_pow_sub_one, Nat.le_add_right, h2]
  exact Bool.and_comm _ _

lemma and_15_eq (x : Nat) : x &&& 15 = x % 16 := by
  have := Nat.and_pow_two_sub_one_eq_mod x 4
  norm_num at this
  exact this

lemma and_31_eq (x : Nat) : x &&& 31 = x % 32 := by
  have := Nat.and_pow_two_sub_one_eq_mod x 5
  norm_num at this
  exact this

lemma and_shift_div (x a : Nat) : (x &&& (31 <<< a)) >>> a = x / 2 ^ a % 32 := by
  have h31 : (31 : Nat) = 2 ^ 5 - 1 := by norm_num
  rw [h31, and_mask_shift, Nat.shiftRight_eq_div_pow]
  norm_num

lemma lor_shift_eq_add (a b k p : Nat) (hp : 2 ^ k = p) (h : a < p) :
    a ||| b <<< k = p * b + a := by
  subst hp
  rw [Nat.shiftLeft_eq, Nat.mul_comm b, Nat.or_comm, ← Nat.mul_add_lt_is_or h]

lemma shl1_shr1 (x : Nat) : (x <<< 1) >>> 1 = x := by
  rw [Nat.shiftLeft_eq, Nat.shiftRight_eq_div_pow]
  norm_num

lemma mask1F0_div (x : Nat) : (x &&& 0x1F0) >>> 4 = x / 16 % 32 := by
  have h0 : (0x1F0 : Nat) = 31 <<< 4 := by decide
  rw [h0, and_shift_div]
  norm_num

lemma mask3E00_div (x : Nat) : (x &&& 0x3E00) >>> 9 = x / 512 % 32 := by
  have h0 : (0x3E00 : Nat) = 31 <<< 9 := by decide
  rw [h0, and_shift_div]
  norm_num

lemma mask7C000_div (x : Nat) : (x &&& 0x7C000) >>> 14 = x / 16384 % 32 := by
  have h0 : (0x7C000 : Nat) = 31 <<< 14 := by decide
  rw [h0, and_shift_div]
  norm_num

lemma maskF80000_div (x : Nat) : (x &&& 0xF80000) >>> 19 = x / 524288 % 32 := by
  have h0 : (0xF80000 : Nat) = 31 <<< 19 := by decide
  rw [h0, and_shift_div]
  norm_num

lemma mask3E0_div (x : Nat) : (x &&& 0x3E0) >>> 5 = x / 32 % 32 := by
  have h0 : (0x3E0 : Nat) = 31 <<< 5 := by decide
  rw [h0, and_shift_div]
  norm_num

lemma mask7C00_div (x : Nat) : (x &&& 0x7C00) >>> 10 = x / 1024 % 32 := by
  have h0 : (0x7C00 : Nat) = 31 <<< 10 := by decide
  rw [h0, and_shift_div]
  norm_num

/-! ## Recovery of the packed fields -/

lemma extractVersion_build_std (m bh tp : Nat) : extractVersion (buildStandardDp m bh tp) = 0 := by
  show ((bh &&& 0xF) <<< 1) &&& 0x1 = 0
  rw [and_15_eq, Nat.shiftLeft_eq, Nat.and_one_is_mod]
  omega

lemma extractVersion_build_ext (m bh tp ti : Nat) :
    extractVersion (buildExtendedDp m bh tp ti) = 0 := by
  show ((bh &&& 0xF) <<< 1) &&& 0x1 = 0
  rw [and_15_eq, Nat.shiftLeft_eq, Nat.and_one_is_mod]
  omega

lemma bh_recover (bh : Nat) (h : bh < 16777216) :
    ((((((bh &&& 0xF) <<< 1) >>> 1 ||| ((bh &&& 0x1F0) >>> 4) <<< 4) |||
      ((bh &&& 0x3E00) >>> 9) <<< 9) ||| ((bh &&& 0x7C000) >>> 14) <<< 14) |||
      ((bh &&& 0xF80000) >>> 19) <<< 19) = bh := by
  rw [and_15_eq, shl1_shr1, mask1F0_div, mask3E00_div, mask7C000_div, maskF80000_div]
  rw [lor_shift_eq_add _ _ 4 16 (by norm_num) (by omega)]
  rw [lor_shift_eq_add _ _ 9 512 (by norm_num) (by omega)]
  rw [lor_shift_eq_add _ _ 14 16384 (by norm_num) (by omega)]
  rw [lor_shift_eq_add _ _ 19 524288 (by norm_num) (by omega)]
  omega

lemma pos_recover (tp : Nat) (h : tp < 32768) :
    ((tp &&& 0x1F ||| ((tp &&& 0x3E0) >>> 5) <<< 5) ||| ((tp &&& 0x7C00) >>> 10) <<< 10) = tp := by
  rw [and_31_eq, mask3E0_div, mask7C00_div]
  rw [lor_shift_eq_add _ _ 5 32 (by norm_num) (by omega)]
  rw [lor_shift_eq_add _ _ 10 1024 (by norm_num) (by omega)]
  omega

lemma extractBlockHeight_build_std (m bh tp : Nat) (h : bh < 16777216) :
    extractBlockHeight (buildStandardDp m bh tp) = .ok bh := by
  rw [extractBlockHeight, if_pos (extractVersion_build_std m bh tp)]
  have g1 : (buildStandardDp m bh tp).getD 1 0 = (bh &&& 0xF) <<< 1 := rfl
  have g2 : (buildStandardDp m bh tp).getD 2 0 = (bh &&& 0x1F0) >>> 4 := rfl
  have g3 : (buildStandardDp m bh tp).getD 3 0 = (bh &&& 0x3E00) >>> 9 := rfl
  have g4 : (buildStandardDp m bh tp).getD 4 0 = (bh &&& 0x7C000) >>> 14 := rfl
  have g5 : (buildStandardDp m bh tp).getD 5 0 = (bh &&& 0xF80000) >>> 19 := rfl
  rw [g1, g2, g3, g4, g5, bh_recover bh h]

lemma extractBlockHeight_build_ext (m bh tp ti : Nat) (h : bh < 16777216) :
    extractBlockHeight (buildExtendedDp m bh tp ti) = .ok bh := by
  rw [extractBlockHeight, if_pos (extractVersion_build_ext m bh tp ti)]
  have g1 : (buildExtendedDp m bh tp ti).getD 1 0 = (bh &&& 0xF) <<< 1 := rfl
  have g2 : (buildExtendedDp m bh tp ti).getD 2 0 = (bh &&& 0x1F0) >>> 4 := rfl
  have g3 : (buildExtendedDp m bh tp ti).getD 3 0 = (bh &&& 0x3E00) >>> 9 := rfl
  have g4 : (buildExtendedDp m bh tp ti).getD 4 0 = (bh &&& 0x7C000) >>> 14 := rfl
  have g5 : (buildExtendedDp m bh tp ti).getD 5 0 = (bh &&& 0xF80000) >>> 19 := rfl
  rw [g1, g2, g3, g4, g5, bh_recover bh h]

lemma extractTransactionPosition_build_std (m bh tp : Nat) (h : tp < 32768) :
    extractTransactionPosition (buildStandardDp m bh tp) = .ok tp := by
  rw [extractTransactionPosition, if_pos (extractVersion_build_std m bh tp)]
  have g6 : (buildStandardDp m bh tp).getD 6 0 = tp &&& 0x1F := rfl
  have g7 : (buildStandardDp m bh tp).getD 7 0 = (tp &&& 0x3E0) >>> 5 := rfl
  have g8 : (buildStandardDp m bh tp).getD 8 0 = (tp &&& 0x7C00) >>> 10 := rfl
  rw [g6, g7, g8, pos_recover tp h]

lemma extractTransactionPosition_build_ext (m bh tp ti : Nat) (h : tp < 32768) :
    extractTransactionPosition (buildExtendedDp m bh tp ti) = .ok tp := by
  rw [extractTransactionPosition, if_pos (extractVersion_build_ext m bh tp ti)]
  have g6 : (buildExtendedDp m bh tp ti).getD 6 0 = tp &&& 0x1F := rfl
  have g7 : (buildExtendedDp m bh tp ti).getD 7 0 = (tp &&& 0x3E0) >>> 5 := rfl
  have g8 : (buildExtendedDp m bh tp ti).getD 8 0 = (tp &&& 0x7C00) >>> 10 := rfl
  rw [g6, g7, g8, pos_recover tp h]

lemma extractTxoIndex_build_std (m bh tp : Nat) :
    extractTxoIndex (buildStandardDp m bh tp) = .ok 0 := rfl

lemma extractTxoIndex_build_ext (m bh tp ti : Nat) (h : ti < 32768) :
    extractTxoIndex (buildExtendedDp m bh tp ti) = .ok ti := by
  rw [extractTxoIndex, if_neg (by simp [buildExtendedDp]),
      if_pos (extractVersion_build_ext m bh tp ti)]
  have g9 : (buildExtendedDp m bh tp ti).getD 9 0 = ti &&& 0x1F := rfl
  have g10 : (buildExtendedDp m bh tp ti).getD 10 0 = (ti &&& 0x3E0) >>> 5 := rfl
  have g11 : (buildExtendedDp m bh tp ti).getD 11 0 = (ti &&& 0x7C00) >>> 10 := rfl
  rw [g9, g10, g11, pos_recover ti h]

lemma extractMagicCode_build_std (m bh tp : Nat) :
    extractMagicCode (buildStandardDp m bh tp) = m := rfl

lemma extractMagicCode_build_ext (m bh tp ti : Nat) :
    extractMagicCode (buildExtendedDp m bh tp ti) = m := rfl

lemma buildStandardDp_length (m bh tp : Nat) : (buildStandardDp m bh tp).length = 9 := rfl

lemma buildExtendedDp_length (m bh tp ti : Nat) : (buildExtendedDp m bh tp ti).length = 12 := rfl

lemma buildStandardDp_lt (m bh tp : Nat) (hm : m < 32) :
    ∀ v ∈ buildStandardDp m bh tp, v < 32 := by
  intro v hv
  simp only [buildStandardDp, List.mem_cons, List.not_mem_nil, or_false] at hv
  rcases hv with h | h | h | h | h | h | h | h | h <;> subst h
  · exact hm
  · rw [and_15_eq, Nat.shiftLeft_eq]; omega
  · rw [mask1F0_div]; omega
  · rw [mask3E00_div]; omega
  · rw [mask7C000_div]; omega
  · rw [maskF80000_div]; omega
  · rw [and_31_eq]; omega
  · rw [mask3E0_div]; omega
  · rw [mask7C00_div]; omega

lemma buildExtendedDp_lt (m bh tp ti : Nat) (hm : m < 32) :
    ∀ v ∈ buildExtendedDp m bh tp ti, v < 32 := by
  intro v hv
  simp only [buildExtendedDp, List.mem_cons, List.not_mem_nil, or_false] at hv
  rcases hv with h | h | h | h | h | h | h | h | h | h | h | h <;> subst h
  · exact hm
  · rw [and_15_eq, Nat.shiftLeft_eq]; omega
  · rw [mask1F0_div]; omega
  · rw [mask3E00_div]; omega
  · rw [mask7C000_div]; omega
  · rw [maskF80000_div]; omega
  · rw [and_31_eq]; omega
  · rw [mask3E0_div]; omega
  · rw [mask7C00_div]; omega
  · rw [and_31_eq]; omega
  · rw [mask3E0_div]; omega
  · rw [mask7C00_div]; omega

/-! ## Alphabet and separator facts -/

lemma keep_hyphen : bech32KeepChar txrefHyphen = false := by decide

lemma keep_colon : bech32KeepChar txrefColon = false := by decide

lemma keep_sep : bech32KeepChar bech32Separator = true := by decide

lemma keep_charFromValue : ∀ v, v < 32 → bech32KeepChar (bech32CharFromValue v) = true := by decide

lemma charFromValue_ne_sep : ∀ v, v < 32 → bech32CharFromValue v ≠ bech32Separator := by decide

lemma charsetIndex_charFromValue : ∀ v, v < 32 → charsetIndex (bech32CharFromValue v) = some v := by
  decide

/-! ## Facts about the modelled checksum codec -/

lemma bech32Checksum_length (c : Nat) (hrp : List Char) (dp : List Nat) :
    (bech32Checksum c hrp dp).length = 6 := rfl

lemma bech32Checksum_lt (c : Nat) (hrp : List Char) (dp : List Nat) :
    ∀ v ∈ bech32Checksum c hrp dp, v < 32 := by
  intro v hv
  simp only [bech32Checksum, List.mem_cons, List.not_mem_nil, or_false] at hv
  have hle : ∀ x : Nat, x &&& 31 < 32 := fun x => Nat.lt_of_le_of_lt Nat.and_le_right (by norm_num)
  rcases hv with h | h | h | h | h | h <;> subst h <;> exact hle _

lemma bech32Encode_length (hrp : List Char) (dp : List Nat) :
    (bech32Encode hrp dp).length = hrp.length + 1 + dp.length + 6 := by
  simp [bech32Encode, bech32Checksum_length]
  omega

lemma bech32Encode_keep (hrp : List Char) (dp : List Nat)
    (hk : ∀ c ∈ hrp, bech32KeepChar c = true) (hdp : ∀ v ∈ dp, v < 32) :
    ∀ c ∈ bech32Encode hrp dp, bech32KeepChar c = true := by
  intro c hc
  simp only [bech32Encode, List.mem_append, List.mem_cons, List.mem_map] at hc
  rcases hc with hc | hc | ⟨v, hv, rfl⟩
  · exact hk c hc
  · subst hc; exact keep_sep
  · rcases hv with hv | hv
    · exact keep_charFromValue v (hdp v hv)
    · exact keep_charFromValue v (bech32Checksum_lt _ _ _ v hv)

lemma lastSepSplit_of_no_sep (l : List Char) (h : ∀ c ∈ l, c ≠ bech32Separator) :
    lastSepSplit l = none := by
  induction l with
  | nil => rfl
  | cons c rest ih =>
    simp only [lastSepSplit, ih (fun x hx => h x (List.mem_cons_of_mem _ hx))]
    rw [if_neg (h c (List.mem_cons_self c rest))]

lemma lastSepSplit_append (hrp body : List Char) (h : ∀ c ∈ body, c ≠ bech32Separator) :
    lastSepSplit (hrp ++ bech32Separator :: body) = some (hrp, body) := by
  induction hrp with
  | nil =>
    rw [List.nil_append, lastSepSplit, lastSepSplit_of_no_sep body h]
    simp
  | cons c rest ih =>
    rw [List.cons_append, lastSepSplit, ih]

lemma valuesOfChars_map (vals : List Nat) (h : ∀ v ∈ vals, v < 32) :
    valuesOfChars (vals.map bech32CharFromValue) = some vals := by
  induction vals with
  | nil => rfl
  | cons v vs ih =>
    simp only [List.map_cons, valuesOfChars,
      charsetIndex_charFromValue v (h v (List.mem_cons_self v vs)),
      ih (fun x hx => h x (List.mem_cons_of_mem _ hx))]

lemma bech32Decode_encode (hrp : List Char) (dp : List Nat)
    (h1 : hrp ≠ []) (h2 : hrp.length ≤ 83) (h3 : ∀ v ∈ dp, v < 32) :
    bech32Decode (bech32Encode hrp dp) = ⟨hrp, dp, Bech32Encoding.bech32m⟩ := by
  have hvals : ∀ v ∈ dp ++ bech32Checksum BECH32M_CONST hrp dp, v < 32 := by
    intro v hv
    rcases List.mem_append.mp hv with hv | hv
    · exact h3 v hv
    · exact bech32Checksum_lt _ _ _ v hv
  have hbody : ∀ c ∈ (dp ++ bech32Checksum BECH32M_CONST hrp dp).map bech32CharFromValue,
      c ≠ bech32Separator := by
    intro c hc
    rcases List.mem_map.mp hc with ⟨v, hv, rfl⟩
    exact charFromValue_ne_sep v (hvals v hv)
  rw [bech32Encode]
  simp only [bech32Decode, lastSepSplit_append hrp _ hbody]
  rw [if_neg (by simpa using h1), if_neg (by simp [MAX_HRP_LENGTH]; omega)]
  simp only [valuesOfChars_map _ hvals]
  have hlen : (dp ++ bech32Checksum BECH32M_CONST hrp dp).length = dp.length + 6 := by
    simp [bech32Checksum_length]
  rw [if_neg (by omega)]
  have htake : (dp ++ bech32Checksum BECH32M_CONST hrp dp).take
      ((dp ++ bech32Checksum BECH32M_CONST hrp dp).length - 6) = dp := by
    rw [hlen]
    simp
  have hdrop : (dp ++ bech32Checksum BECH32M_CONST hrp dp).drop
      ((dp ++ bech32Checksum BECH32M_CONST hrp dp).length - 6) = bech32Checksum BECH32M_CONST hrp dp := by
    rw [hlen]
    simp
  rw [htake, hdrop, if_pos rfl]

/-! ## Stripping and formatting lemmas -/

lemma filter_keep_eq_self (l : List Char) (h : ∀ c ∈ l, bech32KeepChar c = true) :
    l.filter bech32KeepChar = l :=
  List.filter_eq_self.mpr h

lemma stripUnknownChars_idem (s : List Char) :
    stripUnknownChars (stripUnknownChars s) = stripUnknownChars s := by
  simp [stripUnknownChars, List.filter_filter]

lemma strip_bech32Encode (hrp : List Char) (dp : List Nat)
    (hk : ∀ c ∈ hrp, bech32KeepChar c = true) (hdp : ∀ v ∈ dp, v < 32) :
    stripUnknownChars (bech32Encode hrp dp) = bech32Encode hrp dp :=
  filter_keep_eq_self _ (bech32Encode_keep hrp dp hk hdp)

lemma filter_addSepLoop (h o : Nat) (l : List Char) (p : Nat) :
    (addSepLoop h o l p).filter bech32KeepChar = l.filter bech32KeepChar := by
  induction l generalizing p with
  | nil => rfl
  | cons c rest ih =>
    rw [addSepLoop]
    split
    · rw [List.filter_cons, List.filter_cons, keep_hyphen]
      simp only [Bool.false_eq_true, if_false, ih, ← List.filter_cons]
    · rw [List.filter_cons]
      simp only [ih, ← List.filter_cons]

lemma strInsert_filter (s : List Char) (pos : Nat) (c : Char) (out : List Char)
    (hc : bech32KeepChar c = false) (h : strInsert s pos c = some out) :
    out.filter bech32KeepChar = s.filter bech32KeepChar := by
  rw [strInsert] at h
  split at h
  · cases h
    rw [List.filter_append, List.filter_cons, hc]
    simp only [Bool.false_eq_true, if_false, ← List.filter_append, List.take_append_drop]
  · cases h

lemma addGroupSeparators_filter (raw : List Char) (hrplen : Nat) (off : Int) (out : List Char)
    (h : addGroupSeparators raw hrplen off = .ok out) :
    out.filter bech32KeepChar = raw.filter bech32KeepChar := by
  rw [addGroupSeparators] at h
  split_ifs at h
  · cases h; rfl
  · cases h
    exact filter_addSepLoop _ _ _ _

lemma strip_prettyPrint (raw : List Char) (hrplen : Nat) (out : List Char)
    (hk : ∀ c ∈ raw, bech32KeepChar c = true) (hp : prettyPrint raw hrplen = .ok out) :
    stripUnknownChars out = raw := by
  rw [prettyPrint] at hp
  cases hins : strInsert raw (hrplen + 1) txrefColon with
  | none => rw [hins] at hp; cases hp
  | some withColon =>
    rw [hins] at hp
    have h1 : out.filter bech32KeepChar = withColon.filter bech32KeepChar :=
      addGroupSeparators_filter _ _ _ _ hp
    have h2 : withColon.filter bech32KeepChar = raw.filter bech32KeepChar :=
      strInsert_filter raw (hrplen + 1) txrefColon withColon keep_colon hins
    rw [stripUnknownChars, h1, h2, filter_keep_eq_self raw hk]

lemma strInsert_length (s : List Char) (pos : Nat) (c : Char) (out : List Char)
    (h : strInsert s pos c = some out) : out.length = s.length + 1 := by
  rw [strInsert] at h
  split at h
  · cases h
    simp only [List.length_append, List.length_take, List.length_cons, List.length_drop]
    omega
  · cases h

lemma prettyPrint_ok_exists (raw : List Char) (hrplen : Nat)
    (h1 : hrplen ≤ 81) (h2 : hrplen + 1 ≤ raw.length) :
    ∃ out, prettyPrint raw hrplen = .ok out := by
  have hins : strInsert raw (hrplen + 1) txrefColon =
      some (raw.take (hrplen + 1) ++ txrefColon :: raw.drop (hrplen + 1)) := by
    rw [strInsert, if_pos h2]
  simp only [prettyPrint, hins]
  have hlen : (raw.take (hrplen + 1) ++ txrefColon :: raw.drop (hrplen + 1)).length =
      raw.length + 1 := by
    simp only [List.length_append, List.length_take, List.length_cons, List.length_drop]
    omega
  rw [addGroupSeparators]
  rw [if_neg (by simp [MAX_HRP_LENGTH]; omega), if_neg (by norm_num), if_neg (by omega)]
  by_cases heq : (raw.take (hrplen + 1) ++ txrefColon :: raw.drop (hrplen + 1)).length = hrplen + 2
  · rw [if_pos heq]
    exact ⟨_, rfl⟩
  · rw [if_neg heq, if_neg (by omega)]
    exact ⟨_, rfl⟩

/-! ## HRP recovery no-op and range-check lemmas -/

lemma addHrpIfNeeded_noop (s : List Char)
    (h1 : ¬(isLengthValid s.length = true ∧ (s.getD 0 ' ' = 'r' ∨ s.getD 0 ' ' = 'y')))
    (h2 : ¬(isLengthValid s.length = true ∧ (s.getD 0 ' ' = 'x' ∨ s.getD 0 ' ' = '8'))) :
    addHrpIfNeeded s = s := by
  rw [addHrpIfNeeded, if_neg h1, if_neg h2]

lemma checkBlockHeightRange_ok (v : Int) (h0 : 0 ≤ v) (h1 : v ≤ 16777215) :
    checkBlockHeightRange v = .ok () := by
  rw [checkBlockHeightRange, if_neg (by simp only [MAX_BLOCK_HEIGHT]; omega)]

lemma checkTransactionPositionRange_ok (v : Int) (h0 : 0 ≤ v) (h1 : v ≤ 32767) :
    checkTransactionPositionRange v = .ok () := by
  rw [checkTransactionPositionRange, if_neg (by simp only [MAX_TRANSACTION_POSITION]; omega)]

lemma checkTxoIndexRange_ok (v : Int) (h0 : 0 ≤ v) (h1 : v ≤ 32767) :
    checkTxoIndexRange v = .ok () := by
  rw [checkTxoIndexRange, if_neg (by simp only [MAX_TXO_INDEX]; omega)]

lemma checkMagicCodeRange_ok (v : Int) (h0 : 0 ≤ v) (h1 : v ≤ 31) :
    checkMagicCodeRange v = .ok () := by
  rw [checkMagicCodeRange, if_neg (by simp only [MAX_MAGIC_CODE]; omega)]

/-! ## Encode-side pipeline lemmas -/

lemma txrefEncode_ok (hrp : List Char) (m bh tp : Int)
    (hm0 : 0 ≤ m) (hm1 : m ≤ 31) (hbh0 : 0 ≤ bh) (hbh1 : bh ≤ 16777215)
    (htp0 : 0 ≤ tp) (htp1 : tp ≤ 32767)
    (hk : ∀ c ∈ hrp, bech32KeepChar c = true) (hlen : hrp.length ≤ 81) :
    ∃ out, txrefEncode hrp m bh tp = .ok out ∧
      stripUnknownChars out = bech32Encode hrp (buildStandardDp m.toNat bh.toNat tp.toNat) := by
  simp only [txrefEncode, checkBlockHeightRange_ok bh hbh0 hbh1,
    checkTransactionPositionRange_ok tp htp0 htp1, checkMagicCodeRange_ok m hm0 hm1]
  have hdplt := buildStandardDp_lt m.toNat bh.toNat tp.toNat (by omega)
  obtain ⟨out, hout⟩ := prettyPrint_ok_exists
    (bech32Encode hrp (buildStandardDp m.toNat bh.toNat tp.toNat)) hrp.length hlen
    (by rw [bech32Encode_length, buildStandardDp_length]; omega)
  exact ⟨out, hout, strip_prettyPrint _ _ _ (bech32Encode_keep _ _ hk hdplt) hout⟩

lemma txrefExtEncode_ok (hrp : List Char) (m bh tp ti : Int)
    (hm0 : 0 ≤ m) (hm1 : m ≤ 31)
    (hex : checkExtendedMagicCode m = .ok ())
    (hbh0 : 0 ≤ bh) (hbh1 : bh ≤ 16777215)
    (htp0 : 0 ≤ tp) (htp1 : tp ≤ 32767) (hti0 : 0 ≤ ti) (hti1 : ti ≤ 32767)
    (hk : ∀ c ∈ hrp, bech32KeepChar c = true) (hlen : hrp.length ≤ 81) :
    ∃ out, txrefExtEncode hrp m bh tp ti = .ok out ∧
      stripUnknownChars out =
        bech32Encode hrp (buildExtendedDp m.toNat bh.toNat tp.toNat ti.toNat) := by
  simp only [txrefExtEncode, checkBlockHeightRange_ok bh hbh0 hbh1,
    checkTransactionPositionRange_ok tp htp0 htp1, checkTxoIndexRange_ok ti hti0 hti1,
    checkMagicCodeRange_ok m hm0 hm1, hex]
  have hdplt := buildExtendedDp_lt m.toNat bh.toNat tp.toNat ti.toNat (by omega)
  obtain ⟨out, hout⟩ := prettyPrint_ok_exists
    (bech32Encode hrp (buildExtendedDp m.toNat bh.toNat tp.toNat ti.toNat)) hrp.length hlen
    (by rw [bech32Encode_length, buildExtendedDp_length]; omega)
  exact ⟨out, hout, strip_prettyPrint _ _ _ (bech32Encode_keep _ _ hk hdplt) hout⟩

/-! ## Decode-side pipeline lemmas -/

lemma getD_append_left (hrp rest : List Char) (h : hrp ≠ []) :
    (hrp ++ rest).getD 0 ' ' = hrp.getD 0 ' ' := by
  cases hrp with
  | nil => exact absurd rfl h
  | cons c t => rfl

lemma decode_of_strip_std (m bh tp : Nat) (hrp u : List Char)
    (hm : m < 32) (hbh : bh < 16777216) (htp : tp < 32768)
    (h1 : hrp ≠ []) (hlen : hrp.length ≤ 81)
    (hsig : hrp.length = 2 → hrp.getD 0 ' ' ≠ 'r' ∧ hrp.getD 0 ' ' ≠ 'y' ∧
      hrp.getD 0 ' ' ≠ 'x' ∧ hrp.getD 0 ' ' ≠ '8')
    (hu : stripUnknownChars u = bech32Encode hrp (buildStandardDp m bh tp)) :
    ∃ p, txref.decode u = .ok ⟨p, hrp, m, bh, tp, 0, txref.Encoding.bech32m, []⟩ := by
  have hbslen : (bech32Encode hrp (buildStandardDp m bh tp)).length = hrp.length + 16 := by
    rw [bech32Encode_length, buildStandardDp_length]
  have hgd : (bech32Encode hrp (buildStandardDp m bh tp)).getD 0 ' ' = hrp.getD 0 ' ' :=
    getD_append_left hrp _ h1
  have hnoop : addHrpIfNeeded (bech32Encode hrp (buildStandardDp m bh tp)) =
      bech32Encode hrp (buildStandardDp m bh tp) := by
    apply addHrpIfNeeded_noop
    · rintro ⟨hl, hc⟩
      simp only [isLengthValid, hbslen, TXREF_STRING_NO_HRP_MIN_LENGTH,
        TXREF_EXT_STRING_NO_HRP_MIN_LENGTH, Bool.or_eq_true, decide_eq_true_eq] at hl
      have h2 : hrp.length = 2 := by omega
      rcases hsig h2 with ⟨hr, hy, _, _⟩
      rw [hgd] at hc
      rcases hc with hc | hc
      · exact hr hc
      · exact hy hc
    · rintro ⟨hl, hc⟩
      simp only [isLengthValid, hbslen, TXREF_STRING_NO_HRP_MIN_LENGTH,
        TXREF_EXT_STRING_NO_HRP_MIN_LENGTH, Bool.or_eq_true, decide_eq_true_eq] at hl
      have h2 : hrp.length = 2 := by omega
      rcases hsig h2 with ⟨_, _, hx, h8⟩
      rw [hgd] at hc
      rcases hc with hc | hc
      · exact hx hc
      · exact h8 hc
  have hdec : bech32Decode (bech32Encode hrp (buildStandardDp m bh tp)) =
      ⟨hrp, buildStandardDp m bh tp, Bech32Encoding.bech32m⟩ :=
    bech32Decode_encode hrp _ h1 (by omega) (buildStandardDp_lt m bh tp hm)
  obtain ⟨p, hp⟩ := prettyPrint_ok_exists (bech32Encode hrp (buildStandardDp m bh tp))
    hrp.length hlen (by rw [hbslen]; omega)
  have hc1 : ¬(hrp.length = 0 ∧ (buildStandardDp m bh tp).length = 0) := by
    rw [buildStandardDp_length]
    simp
  have hc2 : isDataSizeValid (buildStandardDp m bh tp).length = true := by
    rw [buildStandardDp_length]
    rfl
  refine ⟨p, ?_⟩
  simp only [txref.decode, hu, hnoop, hdec, hc1, hc2, hp, Bool.not_true, if_false,
    extractBlockHeight_build_std m bh tp hbh, extractTransactionPosition_build_std m bh tp htp,
    extractTxoIndex_build_std m bh tp, extractMagicCode_build_std, if_true]
  simp

lemma decode_of_strip_ext (m bh tp ti : Nat) (hrp u : List Char)
    (hm : m < 32) (hbh : bh < 16777216) (htp : tp < 32768) (hti : ti < 32768)
    (h1 : hrp ≠ []) (hlen : hrp.length ≤ 81)
    (hu : stripUnknownChars u = bech32Encode hrp (buildExtendedDp m bh tp ti)) :
    ∃ p, txref.decode u = .ok ⟨p, hrp, m, bh, tp, ti, txref.Encoding.bech32m, []⟩ := by
  have hbslen : (bech32Encode hrp (buildExtendedDp m bh tp ti)).length = hrp.length + 19 := by
    rw [bech32Encode_length, buildExtendedDp_length]
  have hnoop : addHrpIfNeeded (bech32Encode hrp (buildExtendedDp m bh tp ti)) =
      bech32Encode hrp (buildExtendedDp m bh tp ti) := by
    apply addHrpIfNeeded_noop
    · rintro ⟨hl, _⟩
      simp only [isLengthValid, hbslen, TXREF_STRING_NO_HRP_MIN_LENGTH,
        TXREF_EXT_STRING_NO_HRP_MIN_LENGTH, Bool.or_eq_true, decide_eq_true_eq] at hl
      omega
    · rintro ⟨hl, _⟩
      simp only [isLengthValid, hbslen, TXREF_STRING_NO_HRP_MIN_LENGTH,
        TXREF_EXT_STRING_NO_HRP_MIN_LENGTH, Bool.or_eq_true, decide_eq_true_eq] at hl
      omega
  have hdec : bech32Decode (bech32Encode hrp (buildExtendedDp m bh tp ti)) =
      ⟨hrp, buildExtendedDp m bh tp ti, Bech32Encoding.bech32m⟩ :=
    bech32Decode_encode hrp _ h1 (by omega) (buildExtendedDp_lt m bh tp ti hm)
  obtain ⟨p, hp⟩ := prettyPrint_ok_exists (bech32Encode hrp (buildExtendedDp m bh tp ti))
    hrp.length hlen (by rw [hbslen]; omega)
  have hc1 : ¬(hrp.length = 0 ∧ (buildExtendedDp m bh tp ti).length = 0) := by
    rw [buildExtendedDp_length]
    simp
  have hc2 : isDataSizeValid (buildExtendedDp m bh tp ti).length = true := by
    rw [buildExtendedDp_length]
    rfl
  refine ⟨p, ?_⟩
  simp only [txref.decode, hu, hnoop, hdec, hc1, hc2, hp, Bool.not_true, if_false,
    extractBlockHeight_build_ext m bh tp ti hbh,
    extractTransactionPosition_build_ext m bh tp ti htp,
    extractTxoIndex_build_ext m bh tp ti hti, extractMagicCode_build_ext, if_true]
  simp

/-! ## Classifier normal forms -/

lemma classifyInputStringBase_eq (s : List Char) :
    classifyInputStringBase s =
      (if (stripUnknownChars s).length = 18 ∨ (stripUnknownChars s).length = 22 then
        txref.InputParam.txref
      else if (stripUnknownChars s).length = 21 ∨ (stripUnknownChars s).length = 25 then
        txref.InputParam.txrefext
      else txref.InputParam.unknown) := rfl

lemma classifyInputStringMissingHRP_eq (s : List Char) :
    classifyInputStringMissingHRP s =
      (if (stripUnknownChars s).length = 15 then txref.InputParam.txref
      else if (stripUnknownChars s).length = 18 then txref.InputParam.txrefext
      else txref.InputParam.unknown) := rfl

/-! ## Claim C3 -/

/-- C3: every call to encode or encodeTestnet takes the extended payload
path (12-symbol payload carrying the extended magic code of the chosen
network) exactly when txoIndex is nonzero or forceExtended is set, and
otherwise the standard path (9-symbol payload carrying the standard
magic code of the chosen network). -/
theorem C3_path_selection :
    (∀ (bh tp ti : Int) (fe : Bool) (hrp : List Char),
      txref.encode bh tp ti fe hrp =
        if ti ≠ 0 ∨ fe = true then
          txrefExtEncode hrp ((MAGIC_BTC_MAIN_EXTENDED : Nat) : Int) bh tp ti
        else txrefEncode hrp ((MAGIC_BTC_MAIN : Nat) : Int) bh tp) ∧
    (∀ (bh tp ti : Int) (fe : Bool) (hrp : List Char),
      txref.encodeTestnet bh tp ti fe hrp =
        if ti ≠ 0 ∨ fe = true then
          txrefExtEncode hrp ((MAGIC_BTC_TEST_EXTENDED : Nat) : Int) bh tp ti
        else txrefEncode hrp ((MAGIC_BTC_TEST : Nat) : Int) bh tp) ∧
    (∀ m bh tp : Nat, (buildStandardDp m bh tp).length = DATA_SIZE ∧
      (buildStandardDp m bh tp).getD 0 0 = m) ∧
    (∀ m bh tp ti : Nat, (buildExtendedDp m bh tp ti).length = DATA_EXTENDED_SIZE ∧
      (buildExtendedDp m bh tp ti).getD 0 0 = m) := by
  refine ⟨?_, ?_, ?_, ?_⟩
  · intro bh tp ti fe hrp
    cases fe with
    | false =>
      by_cases hti : ti = 0
      · simp [txref.encode, hti]
      · simp [txref.encode, hti]
    | true => simp [txref.encode]
  · intro bh tp ti fe hrp
    cases fe with
    | false =>
      by_cases hti : ti = 0
      · simp [txref.encodeTestnet, hti]
      · simp [txref.encodeTestnet, hti]
    | true => simp [txref.encodeTestnet]
  · intro m bh tp
    exact ⟨rfl, rfl⟩
  · intro m bh tp ti
    exact ⟨rfl, rfl⟩

/-! ## Claim C4 -/

/-- C4: each numeric range check fails with RangeError exactly when the
value is negative or exceeds its maximum (block height 16777215,
position and txo index 32767, magic code 31); encoding succeeds at the
maxima and fails with RangeError past any maximum or below zero. -/
theorem C4_range_checks :
    (∀ v : Int, checkBlockHeightRange v = .error .rangeError ↔ (v < 0 ∨ 16777215 < v)) ∧
    (∀ v : Int, checkTransactionPositionRange v = .error .rangeError ↔ (v < 0 ∨ 32767 < v)) ∧
    (∀ v : Int, checkTxoIndexRange v = .error .rangeError ↔ (v < 0 ∨ 32767 < v)) ∧
    (∀ v : Int, checkMagicCodeRange v = .error .rangeError ↔ (v < 0 ∨ 31 < v)) ∧
    (∀ fe : Bool, (txref.encode 16777215 32767 32767 fe ['t', 'x']).isOk = true ∧
      (txref.encode 16777215 32767 0 false ['t', 'x']).isOk = true) ∧
    (∀ (bh tp ti : Int) (fe : Bool) (hrp : List Char), bh < 0 ∨ 16777215 < bh →
      txref.encode bh tp ti fe hrp = .error .rangeError) ∧
    (∀ (bh tp ti : Int) (fe : Bool) (hrp : List Char), 0 ≤ bh → bh ≤ 16777215 →
      tp < 0 ∨ 32767 < tp → txref.encode bh tp ti fe hrp = .error .rangeError) ∧
    (∀ (bh tp ti : Int) (fe : Bool) (hrp : List Char), 0 ≤ bh → bh ≤ 16777215 →
      0 ≤ tp → tp ≤ 32767 → ti < 0 ∨ 32767 < ti →
      txref.encode bh tp ti fe hrp = .error .rangeError) := by
  refine ⟨?_, ?_, ?_, ?_, ?_, ?_, ?_, ?_⟩
  · intro v
    rw [checkBlockHeightRange]
    split_ifs with h <;> simp_all [MAX_BLOCK_HEIGHT]
  · intro v
    rw [checkTransactionPositionRange]
    split_ifs with h <;> simp_all [MAX_TRANSACTION_POSITION]
  · intro v
    rw [checkTxoIndexRange]
    split_ifs with h <;> simp_all [MAX_TXO_INDEX]
  · intro v
    rw [checkMagicCodeRange]
    split_ifs with h <;> simp_all [MAX_MAGIC_CODE]
  · intro fe
    cases fe <;> exact ⟨by decide, by decide⟩
  · intro bh tp ti fe hrp hbh
    have hc : checkBlockHeightRange bh = .error .rangeError := by
      rw [checkBlockHeightRange, if_pos (by simp only [MAX_BLOCK_HEIGHT]; omega)]
    rw [txref.encode]
    split_ifs <;> simp only [txrefEncode, txrefExtEncode, hc]
  · intro bh tp ti fe hrp hbh0 hbh1 htp
    have hc : checkTransactionPositionRange tp = .error .rangeError := by
      rw [checkTransactionPositionRange, if_pos (by simp only [MAX_TRANSACTION_POSITION]; omega)]
    rw [txref.encode]
    split_ifs <;>
      simp only [txrefEncode, txrefExtEncode, checkBlockHeightRange_ok bh hbh0 hbh1, hc]
  · intro bh tp ti fe hrp hbh0 hbh1 htp0 htp1 hti
    have hne : ¬(ti = 0 ∧ fe = false) := by
      rintro ⟨rfl, _⟩
      omega
    have hc : checkTxoIndexRange ti = .error .rangeError := by
      rw [checkTxoIndexRange, if_pos (by simp only [MAX_TXO_INDEX]; omega)]
    rw [txref.encode, if_neg hne]
    simp only [txrefExtEncode, checkBlockHeightRange_ok bh hbh0 hbh1,
      checkTransactionPositionRange_ok tp htp0 htp1, hc]

theorem C4_witness :
    checkBlockHeightRange 16777216 = .error .rangeError ∧
    txref.encode (-1) 0 0 false ['t', 'x'] = .error .rangeError ∧
    txref.encode 0 32768 0 false ['t', 'x'] = .error .rangeError ∧
    txref.encode 0 0 32768 false ['t', 'x'] = .error .rangeError :=
  ⟨(C4_range_checks.1 16777216).mpr (by decide),
   C4_range_checks.2.2.2.2.2.1 (-1) 0 0 false ['t', 'x'] (by decide),
   C4_range_checks.2.2.2.2.2.2.1 0 32768 0 false ['t', 'x'] (by decide) (by decide) (by decide),
   C4_range_checks.2.2.2.2.2.2.2 0 0 32768 false ['t', 'x'] (by decide) (by decide) (by decide)
     (by decide) (by decide)⟩

/-! ## Claim C10 -/

/-- C10: for every input string, when both length-table interpretations
are non-unrecognized, the combination is exactly the documented
collision (HRP-present standard reference with HRP-stripped extended
reference); hence the fall-through return is only reached with the
HRP-present interpretation unrecognized, validating the final assertion
of classifyInputString. -/
theorem C10_no_conflict (s : List Char)
    (hb : classifyInputStringBase s ≠ txref.InputParam.unknown)
    (hm : classifyInputStringMissingHRP s ≠ txref.InputParam.unknown) :
    classifyInputStringBase s = txref.InputParam.txref ∧
    classifyInputStringMissingHRP s = txref.InputParam.txrefext := by
  rw [classifyInputStringBase_eq] at hb ⊢
  rw [classifyInputStringMissingHRP_eq] at hm ⊢
  split_ifs at hb hm ⊢ <;> first | exact ⟨rfl, rfl⟩ | simp_all

theorem C10_witness :
    classifyInputStringBase (List.replicate 18 'q') = txref.InputParam.txref ∧
    classifyInputStringMissingHRP (List.replicate 18 'q') = txref.InputParam.txrefext :=
  C10_no_conflict (List.replicate 18 'q') (by decide) (by decide)

/-! ## Claim C6 -/

/-- C6: within classify, past the emptiness, transaction-id, and
address guards: when exactly one of the two length-table
interpretations is non-unrecognized it is returned, and in the
documented collision (HRP-present standard reference versus
HRP-stripped extended reference) the result is the standard reference
exactly when the first three characters are the literal mainnet HRP
followed by the codec separator. -/
theorem C6_classify_disambiguation (s : List Char)
    (hne : s ≠ []) (h64 : s.length ≠ 64)
    (haddr : ¬((s.getD 0 ' ' = '1' ∨ s.getD 0 ' ' = '3' ∨ s.getD 0 ' ' = 'm' ∨
      s.getD 0 ' ' = 'n' ∨ s.getD 0 ' ' = '2') ∧ 26 ≤ s.length ∧ s.length < 36)) :
    (classifyInputStringBase s ≠ txref.InputParam.unknown →
      classifyInputStringMissingHRP s = txref.InputParam.unknown →
      txref.classifyInputString s = classifyInputStringBase s) ∧
    (classifyInputStringBase s = txref.InputParam.unknown →
      classifyInputStringMissingHRP s ≠ txref.InputParam.unknown →
      txref.classifyInputString s = classifyInputStringMissingHRP s) ∧
    (classifyInputStringBase s = txref.InputParam.txref →
      classifyInputStringMissingHRP s = txref.InputParam.txrefext →
      txref.classifyInputString s =
        (if s.getD 0 ' ' = 't' ∧ s.getD 1 ' ' = 'x' ∧ s.getD 2 ' ' = '1' then
          txref.InputParam.txref else txref.InputParam.txrefext)) := by
  simp only [txref.classifyInputString, if_neg hne, if_neg h64, if_neg haddr]
  refine ⟨?_, ?_, ?_⟩
  · intro h1 h2
    rw [if_pos ⟨h1, h2⟩]
  · intro h1 h2
    rw [if_neg (by simp [h1]), if_pos ⟨h1, h2⟩]
  · intro h1 h2
    rw [if_neg (by simp [h2]), if_neg (by simp [h1]), if_pos ⟨h1, h2⟩]
    rfl

theorem C6_witness :
    txref.classifyInputString (List.replicate 15 'q') =
      classifyInputStringMissingHRP (List.replicate 15 'q') :=
  (C6_classify_disambiguation (List.replicate 15 'q') (by decide) (by decide)
    (by decide)).2.1 (by decide) (by decide)

/-! ## Claim C2: corrected -/

/-- C2 counterexample: the claim asserts that the standard encode path
fails for every extended magic code, but the internal standard encoder
performs no extended-magic check: it accepts the extended mainnet magic
code and returns an encoding. -/
theorem C2_counterexample :
    (txrefEncode ['t', 'x'] ((MAGIC_BTC_MAIN_EXTENDED : Nat) : Int) 0 0).isOk = true := by
  decide

/-- C2 (amended): the extended encode path fails with UnsupportedVariant
for every in-range magic code other than the two reserved extended
values, given otherwise in-range fields; the public standard encode
paths only ever pass the fixed standard magic codes, which are distinct
from the extended ones, but the internal standard encoder itself
performs no extended-magic check. -/
theorem C2_magic_exclusivity :
    (∀ (hrp : List Char) (m bh tp ti : Int),
      0 ≤ bh → bh ≤ 16777215 → 0 ≤ tp → tp ≤ 32767 → 0 ≤ ti → ti ≤ 32767 →
      0 ≤ m → m ≤ 31 → m ≠ ((MAGIC_BTC_MAIN_EXTENDED : Nat) : Int) →
      m ≠ ((MAGIC_BTC_TEST_EXTENDED : Nat) : Int) →
      txrefExtEncode hrp m bh tp ti = .error .unsupportedVariant) ∧
    (∀ (bh tp : Int) (hrp : List Char),
      txref.encode bh tp 0 false hrp = txrefEncode hrp ((MAGIC_BTC_MAIN : Nat) : Int) bh tp ∧
      txref.encodeTestnet bh tp 0 false hrp =
        txrefEncode hrp ((MAGIC_BTC_TEST : Nat) : Int) bh tp) ∧
    (MAGIC_BTC_MAIN ≠ MAGIC_BTC_MAIN_EXTENDED ∧ MAGIC_BTC_MAIN ≠ MAGIC_BTC_TEST_EXTENDED ∧
      MAGIC_BTC_TEST ≠ MAGIC_BTC_MAIN_EXTENDED ∧ MAGIC_BTC_TEST ≠ MAGIC_BTC_TEST_EXTENDED) := by
  refine ⟨?_, ?_, by decide⟩
  · intro hrp m bh tp ti hbh0 hbh1 htp0 htp1 hti0 hti1 hm0 hm1 hne1 hne2
    have hex : checkExtendedMagicCode m = .error .unsupportedVariant := by
      rw [checkExtendedMagicCode, if_pos ⟨hne1, hne2⟩]
    simp only [txrefExtEncode, checkBlockHeightRange_ok bh hbh0 hbh1,
      checkTransactionPositionRange_ok tp htp0 htp1, checkTxoIndexRange_ok ti hti0 hti1,
      checkMagicCodeRange_ok m hm0 hm1, hex]
  · intro bh tp hrp
    constructor
    · rw [txref.encode, if_pos ⟨rfl, rfl⟩]
    · rw [txref.encodeTestnet, if_pos ⟨rfl, rfl⟩]

theorem C2_witness :
    txrefExtEncode ['t', 'x'] 3 0 0 0 = .error .unsupportedVariant :=
  C2_magic_exclusivity.1 ['t', 'x'] 3 0 0 0 (by decide) (by decide) (by decide) (by decide)
    (by decide) (by decide) (by decide) (by decide) (by decide) (by decide)

/-! ## Claim C7: corrected -/

/-- C7 counterexample: the claim asserts that format fails for every
raw string of length below 2, but a length-1 raw string with HRP length
0 succeeds: the colon is inserted at position 1, the augmented string
reaches the minimum length 2, equals the declared HRP region length,
and is returned unchanged. -/
theorem C7_counterexample : prettyPrint ['a'] 0 = .ok ['a', ':'] := rfl

/-- C7 (amended): format fails for every hrpLength above 83 and for
every rawString of length below 2 except the single case of length 1
with hrpLength 0; when the colon position lies inside the rawString the
failure kind for oversized hrpLength is FormatError, and otherwise the
colon insertion position is past the end of the string, which is
undefined behavior in the source and modelled as a failure; the generic
group-separator helper fails for every separatorOffset at most 0. -/
theorem C7_format_failures :
    (∀ (raw : List Char) (hrplen : Nat), 83 < hrplen → (prettyPrint raw hrplen).isOk = false) ∧
    (∀ (raw : List Char) (hrplen : Nat), 83 < hrplen → hrplen + 1 ≤ raw.length →
      prettyPrint raw hrplen = .error .formatError) ∧
    (∀ (raw : List Char) (hrplen : Nat), raw.length < 2 → ¬(raw.length = 1 ∧ hrplen = 0) →
      (prettyPrint raw hrplen).isOk = false) ∧
    (∀ (raw : List Char) (hrplen : Nat) (off : Int), off ≤ 0 →
      (addGroupSeparators raw hrplen off).isOk = false) := by
  refine ⟨?_, ?_, ?_, ?_⟩
  · intro raw hrplen hbig
    by_cases hp : hrplen + 1 ≤ raw.length
    · have hins : strInsert raw (hrplen + 1) txrefColon =
          some (raw.take (hrplen + 1) ++ txrefColon :: raw.drop (hrplen + 1)) := by
        rw [strInsert, if_pos hp]
      simp only [prettyPrint, hins]
      rw [addGroupSeparators,
        if_pos (show MAX_HRP_LENGTH < hrplen + 2 by simp only [MAX_HRP_LENGTH]; omega)]
      rfl
    · have hins : strInsert raw (hrplen + 1) txrefColon = none := by
        rw [strInsert, if_neg hp]
      simp only [prettyPrint, hins]
      rfl
  · intro raw hrplen hbig hp
    have hins : strInsert raw (hrplen + 1) txrefColon =
        some (raw.take (hrplen + 1) ++ txrefColon :: raw.drop (hrplen + 1)) := by
      rw [strInsert, if_pos hp]
    simp only [prettyPrint, hins]
    rw [addGroupSeparators,
      if_pos (show MAX_HRP_LENGTH < hrplen + 2 by simp only [MAX_HRP_LENGTH]; omega)]
  · intro raw hrplen hshort hexc
    have hp : ¬(hrplen + 1 ≤ raw.length) := by omega
    have hins : strInsert raw (hrplen + 1) txrefColon = none := by
      rw [strInsert, if_neg hp]
    simp only [prettyPrint, hins]
    rfl
  · intro raw hrplen off hoff
    rw [addGroupSeparators]
    split_ifs with h1 h2 <;> first | rfl | omega

theorem C7_witness :
    (prettyPrint [] 84).isOk = false ∧ (prettyPrint ['a'] 1).isOk = false ∧
    (addGroupSeparators ['a', 'b'] 0 0).isOk = false :=
  ⟨C7_format_failures.1 [] 84 (by decide),
   C7_format_failures.2.2.1 ['a'] 1 (by decide) (by decide),
   C7_format_failures.2.2.2 ['a', 'b'] 0 0 (by decide)⟩

/-! ## Claim C1 -/

/-- C1: for every valid input tuple (block height up to 16777215,
transaction position and txo index up to 32767, any forceExtended flag,
and a valid HRP: nonempty, within the formatting limit, over the codec
alphabet, and not triggering the HRP-recovery heuristic), decoding the
string produced by encode or encodeTestnet yields exactly the encoded
field values. -/
theorem C1_roundtrip (bh tp ti : Int) (fe : Bool) (hrp : List Char)
    (hbh0 : 0 ≤ bh) (hbh1 : bh ≤ 16777215) (htp0 : 0 ≤ tp) (htp1 : tp ≤ 32767)
    (hti0 : 0 ≤ ti) (hti1 : ti ≤ 32767)
    (h1 : hrp ≠ []) (hlen : hrp.length ≤ 81) (hk : ∀ c ∈ hrp, bech32KeepChar c = true)
    (hsig : hrp.length = 2 → hrp.getD 0 ' ' ≠ 'r' ∧ hrp.getD 0 ' ' ≠ 'y' ∧
      hrp.getD 0 ' ' ≠ 'x' ∧ hrp.getD 0 ' ' ≠ '8') :
    (∃ s r, txref.encode bh tp ti fe hrp = .ok s ∧ txref.decode s = .ok r ∧
      r.blockHeight = bh.toNat ∧ r.transactionPosition = tp.toNat ∧ r.txoIndex = ti.toNat) ∧
    (∃ s r, txref.encodeTestnet bh tp ti fe hrp = .ok s ∧ txref.decode s = .ok r ∧
      r.blockHeight = bh.toNat ∧ r.transactionPosition = tp.toNat ∧
      r.txoIndex = ti.toNat) := by
  constructor
  · by_cases hcase : ti = 0 ∧ fe = false
    · obtain ⟨s, hs, hstrip⟩ := txrefEncode_ok hrp ((MAGIC_BTC_MAIN : Nat) : Int) bh tp
        (by decide) (by decide) hbh0 hbh1 htp0 htp1 hk hlen
      obtain ⟨p, hp⟩ := decode_of_strip_std ((MAGIC_BTC_MAIN : Nat) : Int).toNat bh.toNat tp.toNat hrp s
        (by decide) (by omega) (by omega) h1 hlen hsig hstrip
      refine ⟨s, _, ?_, hp, rfl, rfl, ?_⟩
      · rw [txref.encode, if_pos hcase]
        exact hs
      · rw [hcase.1]
        rfl
    · obtain ⟨s, hs, hstrip⟩ := txrefExtEncode_ok hrp ((MAGIC_BTC_MAIN_EXTENDED : Nat) : Int)
        bh tp ti (by decide) (by decide) rfl hbh0 hbh1 htp0 htp1 hti0 hti1 hk hlen
      obtain ⟨p, hp⟩ := decode_of_strip_ext ((MAGIC_BTC_MAIN_EXTENDED : Nat) : Int).toNat bh.toNat
        tp.toNat ti.toNat hrp s (by decide) (by omega) (by omega) (by omega) h1 hlen hstrip
      refine ⟨s, _, ?_, hp, rfl, rfl, rfl⟩
      rw [txref.encode, if_neg hcase]
      exact hs
  · by_cases hcase : ti = 0 ∧ fe = false
    · obtain ⟨s, hs, hstrip⟩ := txrefEncode_ok hrp ((MAGIC_BTC_TEST : Nat) : Int) bh tp
        (by decide) (by decide) hbh0 hbh1 htp0 htp1 hk hlen
      obtain ⟨p, hp⟩ := decode_of_strip_std ((MAGIC_BTC_TEST : Nat) : Int).toNat bh.toNat tp.toNat hrp s
        (by decide) (by omega) (by omega) h1 hlen hsig hstrip
      refine ⟨s, _, ?_, hp, rfl, rfl, ?_⟩
      · rw [txref.encodeTestnet, if_pos hcase]
        exact hs
      · rw [hcase.1]
        rfl
    · obtain ⟨s, hs, hstrip⟩ := txrefExtEncode_ok hrp ((MAGIC_BTC_TEST_EXTENDED : Nat) : Int)
        bh tp ti (by decide) (by decide) rfl hbh0 hbh1 htp0 htp1 hti0 hti1 hk hlen
      obtain ⟨p, hp⟩ := decode_of_strip_ext ((MAGIC_BTC_TEST_EXTENDED : Nat) : Int).toNat bh.toNat
        tp.toNat ti.toNat hrp s (by decide) (by omega) (by omega) (by omega) h1 hlen hstrip
      refine ⟨s, _, ?_, hp, rfl, rfl, rfl⟩
      rw [txref.encodeTestnet, if_neg hcase]
      exact hs

theorem C1_witness :
    ∃ s r, txref.encode 466793 2205 0 false ['t', 'x'] = .ok s ∧ txref.decode s = .ok r ∧
      r.blockHeight = (466793 : Int).toNat ∧ r.transactionPosition = (2205 : Int).toNat ∧
      r.txoIndex = (0 : Int).toNat :=
  (C1_roundtrip 466793 2205 0 false ['t', 'x'] (by decide) (by decide) (by decide) (by decide)
    (by decide) (by decide) (by decide) (by decide) (by decide) (by decide)).1

/-! ## Claim C8 -/

/-- C8: formatting is fully invertible: for every raw string over the
codec alphabet (which contains neither colon nor hyphen) stripping the
inserted separator characters from the formatted output restores the
raw string, and decoding the separator-stripped formatted encoding of
any valid fields reproduces those fields. -/
theorem C8_format_invertibility :
    (∀ (raw : List Char) (hrplen : Nat) (out : List Char),
      (∀ c ∈ raw, bech32KeepChar c = true) → prettyPrint raw hrplen = .ok out →
      stripUnknownChars out = raw) ∧
    (∀ (bh tp ti : Int) (fe : Bool) (hrp : List Char),
      0 ≤ bh → bh ≤ 16777215 → 0 ≤ tp → tp ≤ 32767 → 0 ≤ ti → ti ≤ 32767 →
      hrp ≠ [] → hrp.length ≤ 81 → (∀ c ∈ hrp, bech32KeepChar c = true) →
      (hrp.length = 2 → hrp.getD 0 ' ' ≠ 'r' ∧ hrp.getD 0 ' ' ≠ 'y' ∧
        hrp.getD 0 ' ' ≠ 'x' ∧ hrp.getD 0 ' ' ≠ '8') →
      ∃ s r, txref.encode bh tp ti fe hrp = .ok s ∧
        txref.decode (stripUnknownChars s) = .ok r ∧
        r.blockHeight = bh.toNat ∧ r.transactionPosition = tp.toNat ∧
        r.txoIndex = ti.toNat) := by
  constructor
  · intro raw hrplen out hk hp
    exact strip_prettyPrint raw hrplen out hk hp
  · intro bh tp ti fe hrp hbh0 hbh1 htp0 htp1 hti0 hti1 h1 hlen hk hsig
    by_cases hcase : ti = 0 ∧ fe = false
    · obtain ⟨s, hs, hstrip⟩ := txrefEncode_ok hrp ((MAGIC_BTC_MAIN : Nat) : Int) bh tp
        (by decide) (by decide) hbh0 hbh1 htp0 htp1 hk hlen
      obtain ⟨p, hp⟩ := decode_of_strip_std ((MAGIC_BTC_MAIN : Nat) : Int).toNat bh.toNat tp.toNat hrp
        (stripUnknownChars s) (by decide) (by omega) (by omega) h1 hlen hsig
        (by rw [stripUnknownChars_idem, hstrip])
      refine ⟨s, _, ?_, hp, rfl, rfl, ?_⟩
      · rw [txref.encode, if_pos hcase]
        exact hs
      · rw [hcase.1]
        rfl
    · obtain ⟨s, hs, hstrip⟩ := txrefExtEncode_ok hrp ((MAGIC_BTC_MAIN_EXTENDED : Nat) : Int)
        bh tp ti (by decide) (by decide) rfl hbh0 hbh1 htp0 htp1 hti0 hti1 hk hlen
      obtain ⟨p, hp⟩ := decode_of_strip_ext ((MAGIC_BTC_MAIN_EXTENDED : Nat) : Int).toNat bh.toNat tp.toNat ti.toNat
        hrp (stripUnknownChars s) (by decide) (by omega) (by omega) (by omega) h1 hlen
        (by rw [stripUnknownChars_idem, hstrip])
      refine ⟨s, _, ?_, hp, rfl, rfl, rfl⟩
      rw [txref.encode, if_neg hcase]
      exact hs

theorem C8_witness :
    stripUnknownChars ['q', ':', 'q', 'q'] = ['q', 'q', 'q'] ∧
    (∃ s r, txref.encode 466793 2205 13 true ['t', 'x'] = .ok s ∧
      txref.decode (stripUnknownChars s) = .ok r ∧
      r.blockHeight = (466793 : Int).toNat ∧ r.transactionPosition = (2205 : Int).toNat ∧
      r.txoIndex = (13 : Int).toNat) :=
  ⟨C8_format_invertibility.1 ['q', 'q', 'q'] 0 ['q', ':', 'q', 'q'] (by decide) rfl,
   C8_format_invertibility.2 466793 2205 13 true ['t', 'x'] (by decide) (by decide) (by decide)
     (by decide) (by decide) (by decide) (by decide) (by decide) (by decide) (by decide)⟩

/-! ## Error-kind classification of the pipeline stages -/

/-- The error kinds a decode run can raise after the checksum and
payload-size guards have passed: anything but ChecksumError and
InvalidPayloadSize. -/
def benignErr (e : Err) : Bool :=
  match e with
  | .checksumError => false
  | .invalidPayloadSize => false
  | _ => true

lemma checkBlockHeightRange_error (v : Int) (e : Err)
    (h : checkBlockHeightRange v = .error e) : e = .rangeError := by
  rw [checkBlockHeightRange] at h
  split_ifs at h
  injection h with h2
  exact h2.symm

lemma checkTransactionPositionRange_error (v : Int) (e : Err)
    (h : checkTransactionPositionRange v = .error e) : e = .rangeError := by
  rw [checkTransactionPositionRange] at h
  split_ifs at h
  injection h with h2
  exact h2.symm

lemma checkTxoIndexRange_error (v : Int) (e : Err)
    (h : checkTxoIndexRange v = .error e) : e = .rangeError := by
  rw [checkTxoIndexRange] at h
  split_ifs at h
  injection h with h2
  exact h2.symm

lemma checkMagicCodeRange_error (v : Int) (e : Err)
    (h : checkMagicCodeRange v = .error e) : e = .rangeError := by
  rw [checkMagicCodeRange] at h
  split_ifs at h
  injection h with h2
  exact h2.symm

lemma checkExtendedMagicCode_error (v : Int) (e : Err)
    (h : checkExtendedMagicCode v = .error e) : e = .unsupportedVariant := by
  rw [checkExtendedMagicCode] at h
  split_ifs at h
  injection h with h2
  exact h2.symm

lemma addGroupSeparators_error (raw : List Char) (hrplen : Nat) (off : Int) (e : Err)
    (h : addGroupSeparators raw hrplen off = .error e) :
    e = .formatError ∨ e = .separatorOffsetError := by
  rw [addGroupSeparators] at h
  split_ifs at h <;>
    first
      | exact Except.noConfusion h
      | (injection h with h2; exact .inl h2.symm)
      | (injection h with h2; exact .inr h2.symm)

lemma prettyPrint_error (raw : List Char) (hrplen : Nat) (e : Err)
    (h : prettyPrint raw hrplen = .error e) :
    e = .formatError ∨ e = .separatorOffsetError ∨ e = .insertOutOfRange := by
  rw [prettyPrint] at h
  cases hx : strInsert raw (hrplen + 1) txrefColon with
  | none =>
    simp only [hx] at h
    injection h with h2
    exact .inr (.inr h2.symm)
  | some wc =>
    simp only [hx] at h
    rcases addGroupSeparators_error _ _ _ _ h with h2 | h2
    · exact .inl h2
    · exact .inr (.inl h2)

lemma extractBlockHeight_error (dp : List Nat) (e : Err)
    (h : extractBlockHeight dp = .error e) : e = .unsupportedVersion := by
  rw [extractBlockHeight] at h
  split_ifs at h
  injection h with h2
  exact h2.symm

lemma extractTransactionPosition_error (dp : List Nat) (e : Err)
    (h : extractTransactionPosition dp = .error e) : e = .unsupportedVersion := by
  rw [extractTransactionPosition] at h
  split_ifs at h
  injection h with h2
  exact h2.symm

lemma extractTxoIndex_error (dp : List Nat) (e : Err)
    (h : extractTxoIndex dp = .error e) : e = .unsupportedVersion := by
  rw [extractTxoIndex] at h
  split_ifs at h
  injection h with h2
  exact h2.symm

lemma txrefEncode_benign (hrp : List Char) (m bh tp : Int) (e : Err)
    (h : txrefEncode hrp m bh tp = .error e) : benignErr e = true := by
  rw [txrefEncode] at h
  cases hc1 : checkBlockHeightRange bh with
  | error e1 =>
    simp only [hc1] at h
    injection h with h2
    subst h2
    have h3 := checkBlockHeightRange_error bh e1 hc1
    subst h3
    rfl
  | ok u1 =>
    simp only [hc1] at h
    cases hc2 : checkTransactionPositionRange tp with
    | error e2 =>
      simp only [hc2] at h
      injection h with h2
      subst h2
      have h3 := checkTransactionPositionRange_error tp e2 hc2
      subst h3
      rfl
    | ok u2 =>
      simp only [hc2] at h
      cases hc3 : checkMagicCodeRange m with
      | error e3 =>
        simp only [hc3] at h
        injection h with h2
        subst h2
        have h3 := checkMagicCodeRange_error m e3 hc3
        subst h3
        rfl
      | ok u3 =>
        simp only [hc3] at h
        rcases prettyPrint_error _ _ _ h with h3 | h3 | h3 <;> (subst h3; rfl)

lemma txrefExtEncode_benign (hrp : List Char) (m bh tp ti : Int) (e : Err)
    (h : txrefExtEncode hrp m bh tp ti = .error e) : benignErr e = true := by
  rw [txrefExtEncode] at h
  cases hc1 : checkBlockHeightRange bh with
  | error e1 =>
    simp only [hc1] at h
    injection h with h2
    subst h2
    have h3 := checkBlockHeightRange_error bh e1 hc1
    subst h3
    rfl
  | ok u1 =>
    simp only [hc1] at h
    cases hc2 : checkTransactionPositionRange tp with
    | error e2 =>
      simp only [hc2] at h
      injection h with h2
      subst h2
      have h3 := checkTransactionPositionRange_error tp e2 hc2
      subst h3
      rfl
    | ok u2 =>
      simp only [hc2] at h
      cases hc3 : checkTxoIndexRange ti with
      | error e3 =>
        simp only [hc3] at h
        injection h with h2
        subst h2
        have h3 := checkTxoIndexRange_error ti e3 hc3
        subst h3
        rfl
      | ok u3 =>
        simp only [hc3] at h
        cases hc4 : checkMagicCodeRange m with
        | error e4 =>
          simp only [hc4] at h
          injection h with h2
          subst h2
          have h3 := checkMagicCodeRange_error m e4 hc4
          subst h3
          rfl
        | ok u4 =>
          simp only [hc4] at h
          cases hc5 : checkExtendedMagicCode m with
          | error e5 =>
            simp only [hc5] at h
            injection h with h2
            subst h2
            have h3 := checkExtendedMagicCode_error m e5 hc5
            subst h3
            rfl
          | ok u5 =>
            simp only [hc5] at h
            rcases prettyPrint_error _ _ _ h with h3 | h3 | h3 <;> (subst h3; rfl)

lemma decode_tail_benign (s : List Char) (e : Err)
    (hg1 : ¬((bech32Decode (addHrpIfNeeded (stripUnknownChars s))).hrp.length = 0 ∧
      (bech32Decode (addHrpIfNeeded (stripUnknownChars s))).dp.length = 0))
    (hg2 : isDataSizeValid (bech32Decode (addHrpIfNeeded (stripUnknownChars s))).dp.length = true)
    (h : txref.decode s = .error e) : benignErr e = true := by
  simp only [txref.decode, if_neg hg1, hg2, Bool.not_true, Bool.false_eq_true, if_false] at h
  cases hp : prettyPrint (addHrpIfNeeded (stripUnknownChars s))
      (bech32Decode (addHrpIfNeeded (stripUnknownChars s))).hrp.length with
  | error e1 =>
    simp only [hp] at h
    injection h with h2
    subst h2
    rcases prettyPrint_error _ _ _ hp with h3 | h3 | h3 <;> (subst h3; rfl)
  | ok p =>
    simp only [hp] at h
    cases hbh : extractBlockHeight (bech32Decode (addHrpIfNeeded (stripUnknownChars s))).dp with
    | error e1 =>
      simp only [hbh] at h
      injection h with h2
      subst h2
      have h3 := extractBlockHeight_error _ e1 hbh
      subst h3
      rfl
    | ok bh =>
      simp only [hbh] at h
      cases htp : extractTransactionPosition
          (bech32Decode (addHrpIfNeeded (stripUnknownChars s))).dp with
      | error e2 =>
        simp only [htp] at h
        injection h with h2
        subst h2
        have h3 := extractTransactionPosition_error _ e2 htp
        subst h3
        rfl
      | ok tp =>
        simp only [htp] at h
        cases hti : extractTxoIndex (bech32Decode (addHrpIfNeeded (stripUnknownChars s))).dp with
        | error e3 =>
          simp only [hti] at h
          injection h with h2
          subst h2
          have h3 := extractTxoIndex_error _ e3 hti
          subst h3
          rfl
        | ok ti =>
          simp only [hti] at h
          split_ifs at h
          · cases hup : txrefExtEncode (bech32Decode (addHrpIfNeeded (stripUnknownChars s))).hrp
                ((extractMagicCode (bech32Decode (addHrpIfNeeded (stripUnknownChars s))).dp : Nat)
                  : Int) (bh : Int) (tp : Int) (ti : Int) with
            | error e4 =>
              simp only [hup] at h
              injection h with h2
              subst h2
              exact txrefExtEncode_benign _ _ _ _ _ e4 hup
            | ok u =>
              simp only [hup] at h
              exact Except.noConfusion h
          · cases hup : txrefEncode (bech32Decode (addHrpIfNeeded (stripUnknownChars s))).hrp
                ((extractMagicCode (bech32Decode (addHrpIfNeeded (stripUnknownChars s))).dp : Nat)
                  : Int) (bh : Int) (tp : Int) with
            | error e4 =>
              simp only [hup] at h
              injection h with h2
              subst h2
              exact txrefEncode_benign _ _ _ _ e4 hup
            | ok u =>
              simp only [hup] at h
              exact Except.noConfusion h

/-! ## Claim C5 -/

/-- C5: decode fails with ChecksumError exactly when the external
checksum decoder returns an empty HRP together with an empty payload,
fails with InvalidPayloadSize exactly when the checksum decode
succeeded but the payload length is neither 9 nor 12 (the empty
checksum-failure result takes precedence), and in all such cases no
DecodedResult is returned. -/
theorem C5_decode_error_conditions (s : List Char) :
    (txref.decode s = .error .checksumError ↔
      ((bech32Decode (addHrpIfNeeded (stripUnknownChars s))).hrp.length = 0 ∧
       (bech32Decode (addHrpIfNeeded (stripUnknownChars s))).dp.length = 0)) ∧
    (txref.decode s = .error .invalidPayloadSize ↔
      (¬((bech32Decode (addHrpIfNeeded (stripUnknownChars s))).hrp.length = 0 ∧
         (bech32Decode (addHrpIfNeeded (stripUnknownChars s))).dp.length = 0) ∧
       ¬(isDataSizeValid (bech32Decode (addHrpIfNeeded (stripUnknownChars s))).dp.length
          = true))) ∧
    ((((bech32Decode (addHrpIfNeeded (stripUnknownChars s))).hrp.length = 0 ∧
       (bech32Decode (addHrpIfNeeded (stripUnknownChars s))).dp.length = 0) ∨
      ¬(isDataSizeValid (bech32Decode (addHrpIfNeeded (stripUnknownChars s))).dp.length
         = true)) →
      ∀ r, txref.decode s ≠ .ok r) := by
  by_cases hg1 : (bech32Decode (addHrpIfNeeded (stripUnknownChars s))).hrp.length = 0 ∧
      (bech32Decode (addHrpIfNeeded (stripUnknownChars s))).dp.length = 0
  · have hdec : txref.decode s = .error .checksumError := by
      simp only [txref.decode]
      rw [if_pos hg1]
    refine ⟨?_, ?_, ?_⟩
    · simp [hdec, hg1]
    · simp [hdec, hg1]
    · intro _ r
      rw [hdec]
      exact fun hcon => Except.noConfusion hcon
  · by_cases hg2 : isDataSizeValid
        (bech32Decode (addHrpIfNeeded (stripUnknownChars s))).dp.length = true
    · have hben : ∀ e, txref.decode s = .error e → benignErr e = true :=
        fun e h => decode_tail_benign s e hg1 hg2 h
      refine ⟨?_, ?_, ?_⟩
      · constructor
        · intro h
          exact absurd (hben _ h) (by decide)
        · intro h
          exact absurd h hg1
      · constructor
        · intro h
          exact absurd (hben _ h) (by decide)
        · rintro ⟨_, h2⟩
          exact absurd hg2 h2
      · rintro (h | h) r
        · exact absurd h hg1
        · exact absurd hg2 h
    · have hsf : isDataSizeValid
          (bech32Decode (addHrpIfNeeded (stripUnknownChars s))).dp.length = false := by
        revert hg2
        cases isDataSizeValid (bech32Decode (addHrpIfNeeded (stripUnknownChars s))).dp.length
        · intro _
          rfl
        · intro hcon
          exact absurd rfl hcon
      have hdec : txref.decode s = .error .invalidPayloadSize := by
        simp only [txref.decode, if_neg hg1, hsf, Bool.not_false, if_true]
      refine ⟨?_, ?_, ?_⟩
      · constructor
        · intro h
          rw [hdec] at h
          injection h with h2
          exact absurd h2 (by decide)
        · intro hcon
          exact absurd hcon hg1
      · exact ⟨fun _ => ⟨hg1, hg2⟩, fun _ => hdec⟩
      · intro _ r
        rw [hdec]
        exact fun hcon => Except.noConfusion hcon

set_option maxRecDepth 8192 in
theorem C5_witness :
    txref.decode [] = .error .checksumError ∧
    txref.decode
      (bech32Encode ['t', 'x'] [3, 0, 0, 0, 0, 0, 0, 0, 0, 0]) = .error .invalidPayloadSize :=
  ⟨(C5_decode_error_conditions []).1.mpr (by decide),
   (C5_decode_error_conditions
     (bech32Encode ['t', 'x'] [3, 0, 0, 0, 0, 0, 0, 0, 0, 0])).2.1.mpr (by decide)⟩

/-! ## Decode success inversion for the modelled codec -/

lemma lastSepSplit_reconstruct (s h t : List Char) (heq : lastSepSplit s = some (h, t)) :
    s = h ++ bech32Separator :: t := by
  induction s generalizing h t with
  | nil => cases heq
  | cons c rest ih =>
    rw [lastSepSplit] at heq
    cases hr : lastSepSplit rest with
    | some pr =>
      obtain ⟨h1, t1⟩ := pr
      have hrest := ih h1 t1 hr
      simp only [hr, Option.some.injEq, Prod.mk.injEq] at heq
      obtain ⟨ha, hb⟩ := heq
      rw [← ha, ← hb, List.cons_append, ← hrest]
    | none =>
      simp only [hr] at heq
      split_ifs at heq with hc
      simp only [Option.some.injEq, Prod.mk.injEq] at heq
      obtain ⟨ha, hb⟩ := heq
      rw [← ha, ← hb, List.nil_append, hc]

lemma valuesOfChars_length (body : List Char) (vals : List Nat)
    (h : valuesOfChars body = some vals) : body.length = vals.length := by
  induction body generalizing vals with
  | nil =>
    rw [valuesOfChars] at h
    injection h with h2
    subst h2
    rfl
  | cons c cs ih =>
    rw [valuesOfChars] at h
    cases hc : charsetIndex c with
    | none =>
      simp only [hc] at h
      exact Option.noConfusion h
    | some v =>
      cases hcs : valuesOfChars cs with
      | none =>
        simp only [hc, hcs] at h
        exact Option.noConfusion h
      | some vs =>
        simp only [hc, hcs] at h
        injection h with h2
        subst h2
        simp [ih vs hcs]

lemma bech32Decode_success (s hrp : List Char) (dp : List Nat) (enc : Bech32Encoding)
    (h : bech32Decode s = ⟨hrp, dp, enc⟩) (hne : hrp ≠ []) :
    ∃ body vals, lastSepSplit s = some (hrp, body) ∧ valuesOfChars body = some vals ∧
      6 ≤ vals.length ∧ dp = vals.take (vals.length - 6) := by
  rw [bech32Decode] at h
  cases hs : lastSepSplit s with
  | none =>
    simp only [hs, bech32Fail] at h
    injection h with h1 h2 h3
    exact absurd h1.symm hne
  | some pr =>
    obtain ⟨h0, body⟩ := pr
    simp only [hs] at h
    split_ifs at h with c1 c2
    · simp only [bech32Fail] at h
      injection h with h1 h2 h3
      exact absurd h1.symm hne
    · simp only [bech32Fail] at h
      injection h with h1 h2 h3
      exact absurd h1.symm hne
    · cases hv : valuesOfChars body with
      | none =>
        simp only [hv, bech32Fail] at h
        injection h with h1 h2 h3
        exact absurd h1.symm hne
      | some vals =>
        simp only [hv] at h
        split_ifs at h with c3 c4 c5
        · simp only [bech32Fail] at h
          injection h with h1 h2 h3
          exact absurd h1.symm hne
        · injection h with h1 h2 h3
          subst h1
          exact ⟨body, vals, rfl, hv, by omega, h2.symm⟩
        · injection h with h1 h2 h3
          subst h1
          exact ⟨body, vals, rfl, hv, by omega, h2.symm⟩
        · simp only [bech32Fail] at h
          injection h with h1 h2 h3
          exact absurd h1.symm hne

/-! ## Claim C9: corrected -/

set_option maxRecDepth 200000 in
/-- C9 counterexample: the claim asserts that any payload whose version
bit is set makes decode fail with UnsupportedVersion, but decode
re-formats the cleaned string before extracting fields, and that
formatting step enforces the 83-character limit on the HRP plus its two
separator characters: with an 82-character HRP and a set version bit,
decode fails with FormatError instead. -/
theorem C9_counterexample :
    (bech32Decode (addHrpIfNeeded (stripUnknownChars
        (bech32Encode (List.replicate 82 'q') [3, 1, 0, 0, 0, 0, 0, 0, 0])))).dp.getD 1 0
      &&& 0x1 = 1 ∧
    txref.decode (bech32Encode (List.replicate 82 'q') [3, 1, 0, 0, 0, 0, 0, 0, 0]) =
      .error .formatError := by
  constructor
  · decide
  · rfl

/-- C9 (amended): for every input string whose checksum decode succeeds
with a payload of valid size and a set version bit, provided the HRP is
short enough for the internal re-formatting (at most 81 characters),
decode fails with UnsupportedVersion and returns no fields; version 0
is the only value for which field extraction proceeds. -/
theorem C9_version_check (s hrp : List Char) (dp : List Nat) (enc : Bech32Encoding)
    (hdec : bech32Decode (addHrpIfNeeded (stripUnknownChars s)) = ⟨hrp, dp, enc⟩)
    (hne : hrp ≠ []) (hlen : hrp.length ≤ 81)
    (hsize : isDataSizeValid dp.length = true)
    (hver : ¬(dp.getD 1 0 &&& 0x1 = 0)) :
    txref.decode s = .error .unsupportedVersion := by
  obtain ⟨body, vals, hs1, hv, hlen6, hdp⟩ := bech32Decode_success _ _ _ _ hdec hne
  have hrec : addHrpIfNeeded (stripUnknownChars s) = hrp ++ bech32Separator :: body :=
    lastSepSplit_reconstruct _ _ _ hs1
  have hlen2 : hrp.length + 1 ≤ (addHrpIfNeeded (stripUnknownChars s)).length := by
    rw [hrec]
    simp only [List.length_append, List.length_cons]
    omega
  obtain ⟨p, hp⟩ := prettyPrint_ok_exists _ hrp.length hlen hlen2
  have hg1 : ¬(hrp.length = 0 ∧ dp.length = 0) := by
    rintro ⟨h1, _⟩
    exact hne (List.length_eq_zero.mp h1)
  have hbh : extractBlockHeight dp = .error .unsupportedVersion := by
    rw [extractBlockHeight]
    simp only [extractVersion]
    rw [if_neg hver]
  simp only [txref.decode, hdec, if_neg hg1, hsize, Bool.not_true, Bool.false_eq_true,
    if_false, hp, hbh]

set_option maxRecDepth 8192 in
theorem C9_witness :
    txref.decode (bech32Encode ['t', 'x'] [3, 1, 0, 0, 0, 0, 0, 0, 0]) =
      .error .unsupportedVersion :=
  C9_version_check (bech32Encode ['t', 'x'] [3, 1, 0, 0, 0, 0, 0, 0, 0]) ['t', 'x']
    [3, 1, 0, 0, 0, 0, 0, 0, 0] Bech32Encoding.bech32m rfl (by decide) (by decide) (by decide)
    (by decide)

theorem C3_witness :
    txref.encode 1 2 3 false ['t', 'x'] =
      txrefExtEncode ['t', 'x'] ((MAGIC_BTC_MAIN_EXTENDED : Nat) : Int) 1 2 3 ∧
    txref.encode 1 2 0 false ['t', 'x'] =
      txrefEncode ['t', 'x'] ((MAGIC_BTC_MAIN : Nat) : Int) 1 2 :=
  ⟨(C3_path_selection.1 1 2 3 false ['t', 'x']).trans (if_pos (by decide)),
   (C3_path_selection.1 1 2 0 false ['t', 'x']).trans (if_neg (by decide))⟩
